import Mathlib

/-!
Verification of the ONNX-to-torch-dialect graph importer
(`src/python/torch_mlir/extras/onnx_importer.py`).

The importer is a single Python file; this development is a shallow
embedding of it. Conventions used throughout:

* Protobuf descriptors (`onnx.GraphProto`, `onnx.NodeProto`, ...) are
  modelled as inductive types whose fields mirror the fields the importer
  actually reads. Protobuf singular-message fields are `Option`-valued
  (`none` = field not set; reading an unset field yields the default
  instance, which is what the accessor functions below return).
  A protobuf message object is always truthy in Python, so code such as
  `not old_attribute.g` is embedded as `false`; repeated fields are lists
  and are truthy iff nonempty.
* Python dictionaries are embedded as association lists with
  insertion-order preserving update (`pyUpd`), matching `dict` semantics.
* The MLIR context uniques types structurally, so IR type objects are
  modelled by a structural inductive `IrType`; Python object identity on
  types coincides with equality of this representation.  `IrType.parse`
  composed with the importer's assembly-printing is modelled as the
  corresponding structural constructor (the IR parser/printer is an
  out-of-scope oracle per the specification).
* Fallible Python code (raised exceptions: `OnnxImportError`,
  `AssertionError`, `KeyError`, `NameError`) is embedded with
  `Except Err`.
* The mutually recursive import process (graph import → node import →
  operator-function specialization → recursive graph import) is embedded
  with an explicit fuel parameter; fuel exhaustion is the distinguished
  error `Err.outOfFuel`, never confused with a genuine importer error.
-/

/-! ## Protobuf data model -/

/-- `onnx.TensorProto.Dimension`-style dimension of a tensor shape:
`dimValue = some n` iff `HasField("dim_value")`. -/
structure DimProto where
  dimValue : Option Nat
  deriving DecidableEq, Repr

/-- The `tensor_type` payload of an `onnx.TypeProto`: an element-type code
(`0` = unset) and an optional shape (`none` = the `shape` field is absent,
i.e. unknown rank; `some dims` = known rank `dims.length`). -/
structure TensorTypeProto where
  elemType : Nat
  shape : Option (List DimProto)
  deriving DecidableEq, Repr

/-- `onnx.TypeProto` as discriminated by its `value` oneof.  `empty` is a
`TypeProto` with no variant set (`WhichOneof("value") is None`). -/
inductive TypeProto where
  | empty : TypeProto
  | tensor (tt : TensorTypeProto) : TypeProto
  | sequence (elem : TypeProto) : TypeProto
  | optionalT (elem : TypeProto) : TypeProto
  deriving DecidableEq, Repr

/-- Reading `tp.tensor_type`: the default instance when the oneof holds a
different variant. -/
def TypeProto.tensorTypeField : TypeProto → TensorTypeProto
  | .tensor tt => tt
  | _ => ⟨0, none⟩

/-- Reading `tp.sequence_type.elem_type` (default instance when unset). -/
def TypeProto.sequenceElemField : TypeProto → TypeProto
  | .sequence e => e
  | _ => .empty

/-- Reading `tp.optional_type.elem_type` (default instance when unset). -/
def TypeProto.optionalElemField : TypeProto → TypeProto
  | .optionalT e => e
  | _ => .empty

/-- Truthiness of `str(msg)` for a `TypeProto` submessage: the string form
of a fully-default message is empty. -/
def TypeProto.strNonEmpty : TypeProto → Bool
  | .empty => false
  | .tensor tt => !(tt == ⟨0, none⟩)
  | _ => true

/-- `onnx.ValueInfoProto`: a named value with a type annotation. -/
structure ValueInfoProto where
  name : String
  type : TypeProto
  deriving DecidableEq, Repr

/-- `onnx.TensorProto` (an initializer literal): only the fields read by
the importer.  `rawData = some bytes` iff `HasField("raw_data")`. -/
structure TensorProto where
  name : String
  dataType : Nat
  dims : List Nat
  rawData : Option (List Nat)
  deriving DecidableEq, Repr

mutual
/-- `onnx.AttributeProto`.  `refAttrName` is `""` when the attribute is not
a reference to an attribute of an enclosing function call.  `g` is the
singular subgraph field (`none` = unset), `graphs` the repeated one.
`type` is the `AttributeProto.AttributeType` code; non-graph payloads are
collapsed into an opaque `payload` since the importer copies them
wholesale. -/
inductive AttributeProto where
  | mk (name : String) (refAttrName : String) (type : Nat)
       (g : Option GraphProto) (graphs : List GraphProto)
       (t : Option TensorProto) (tensors : List TensorProto)
       (payload : Nat) : AttributeProto

/-- `onnx.GraphProto`: the fields read by the importer. -/
inductive GraphProto where
  | mk (name : String) (node : List NodeProto)
       (initializer : List TensorProto)
       (input : List ValueInfoProto) (output : List ValueInfoProto)
       (valueInfo : List ValueInfoProto) : GraphProto

/-- `onnx.NodeProto`: one operator invocation. -/
inductive NodeProto where
  | mk (opType : String) (domain : String) (name : String)
       (input : List String) (output : List String)
       (attrs : List AttributeProto) : NodeProto
end

def AttributeProto.name : AttributeProto → String
  | .mk n _ _ _ _ _ _ _ => n
def AttributeProto.refAttrName : AttributeProto → String
  | .mk _ r _ _ _ _ _ _ => r
def AttributeProto.type : AttributeProto → Nat
  | .mk _ _ t _ _ _ _ _ => t
def AttributeProto.g : AttributeProto → Option GraphProto
  | .mk _ _ _ g _ _ _ _ => g
def AttributeProto.graphs : AttributeProto → List GraphProto
  | .mk _ _ _ _ gs _ _ _ => gs
def AttributeProto.t : AttributeProto → Option TensorProto
  | .mk _ _ _ _ _ t _ _ => t
def AttributeProto.tensors : AttributeProto → List TensorProto
  | .mk _ _ _ _ _ _ ts _ => ts
def AttributeProto.payload : AttributeProto → Nat
  | .mk _ _ _ _ _ _ _ p => p

/-- `new_attribute.CopyFrom(x); new_attribute.name = y` -/
def AttributeProto.withName (a : AttributeProto) (n : String) : AttributeProto :=
  match a with
  | .mk _ r ty g gs t ts p => .mk n r ty g gs t ts p

def GraphProto.name : GraphProto → String
  | .mk n _ _ _ _ _ => n
def GraphProto.node : GraphProto → List NodeProto
  | .mk _ ns _ _ _ _ => ns
def GraphProto.initializer : GraphProto → List TensorProto
  | .mk _ _ i _ _ _ => i
def GraphProto.input : GraphProto → List ValueInfoProto
  | .mk _ _ _ i _ _ => i
def GraphProto.output : GraphProto → List ValueInfoProto
  | .mk _ _ _ _ o _ => o
def GraphProto.valueInfo : GraphProto → List ValueInfoProto
  | .mk _ _ _ _ _ v => v

def NodeProto.opType : NodeProto → String
  | .mk o _ _ _ _ _ => o
def NodeProto.domain : NodeProto → String
  | .mk _ d _ _ _ _ => d
def NodeProto.name : NodeProto → String
  | .mk _ _ n _ _ _ => n
def NodeProto.input : NodeProto → List String
  | .mk _ _ _ i _ _ => i
def NodeProto.output : NodeProto → List String
  | .mk _ _ _ _ o _ => o
/-- Reading `node.attribute` (field renamed: `attribute` is a Lean keyword). -/
def NodeProto.attrs : NodeProto → List AttributeProto
  | .mk _ _ _ _ _ a => a

/-- `onnx.OperatorSetIdProto` -/
structure OpsetImport where
  domain : String
  version : Nat
  deriving DecidableEq, Repr

/-- `onnx.FunctionProto`: a function template body. -/
structure FunctionProto where
  input : List String
  output : List String
  node : List NodeProto
  opsetImport : List OpsetImport

/-- `onnx.ModelProto`: the fields read by the importer. -/
structure ModelProto where
  graph : GraphProto
  opsetImport : List OpsetImport
  irVersion : Nat

/-! ## Python dictionary model

Python `dict`s keyed by strings (or ints) are embedded as association
lists with unique keys: `pyUpd` is `d[k] = v` (replace in place if the key
exists, else append — matching insertion-order semantics), `pyLookup` is
`d.get(k)`, `pyDict` builds a dict from a list of key/value pairs. -/

def pyLookup {κ α : Type} [BEq κ] (d : List (κ × α)) (k : κ) : Option α :=
  match d.find? (fun p => p.1 == k) with
  | some p => some p.2
  | none => none

def pyUpd {κ α : Type} [BEq κ] (d : List (κ × α)) (k : κ) (v : α) : List (κ × α) :=
  if (d.find? (fun p => p.1 == k)).isSome then
    d.map (fun p => if p.1 == k then (p.1, v) else p)
  else
    d ++ [(k, v)]

def pyDict {κ α : Type} [BEq κ] (l : List (κ × α)) : List (κ × α) :=
  l.foldl (fun d p => pyUpd d p.1 p.2) []

def pyContains {κ α : Type} [BEq κ] (d : List (κ × α)) (k : κ) : Bool :=
  (pyLookup d k).isSome

/-! ## Errors

The importer's raised exceptions.  `OnnxImportError` carries a message in
the source; here each raise site gets its own constructor.  Python-level
exceptions (`AssertionError`, `KeyError`, `NameError`/`UnboundLocalError`,
`TypeError`) that the source does not catch are modelled as errors too.
`outOfFuel` is an artifact of the fueled embedding of the (possibly
unbounded) recursive import and corresponds to no source behaviour. -/

inductive Err where
  /-- `OnnxImportError(f"Non topologically produced ONNX node input ...")` -/
  | nonTopologicalInput (name : String)
  /-- `OnnxImportError(f"Non topologically produced ONNX graph output ...")` -/
  | nonTopologicalOutput (name : String)
  /-- `OnnxImportError(f"Unknown ONNX tensor element type: ...")` -/
  | unknownElemType (code : Nat)
  /-- `OnnxImportError(f"Unsupported ONNX TypeProto: ...")` -/
  | unsupportedTypeProto
  /-- `OnnxImportError(f"Unsupport list element type")` -/
  | unsupportedListElementType
  /-- `OnnxImportError(f"Unsupport optional element type")` -/
  | unsupportedOptionalElementType
  /-- `OnnxImportError(f"Unhandled ONNX attribute type code ...")` -/
  | unhandledAttrTypeCode (code : Nat)
  /-- `OnnxImportError("ONNX importer does not support generic node attribute type ...")` -/
  | unsupportedAttrType (code : Nat)
  /-- `OnnxImportError(f"Unsupported builtin tensor type")` -/
  | unsupportedBuiltinTensorType
  /-- `OnnxImportError(f"Unhandled ONNX TensorProto data: ...")` -/
  | unhandledTensorProtoData
  /-- `OnnxImportError(f"Function lookup ... failed unexpectedly...")` -/
  | specializationFailure
  /-- a failed `assert` statement -/
  | assertionError (site : String)
  /-- Python `KeyError` escaping uncaught (e.g. `op_schema.attributes[ref_name]`) -/
  | keyError (key : String)
  /-- Python `NameError`/`UnboundLocalError` (e.g. `new_subgraph`, `opset_version`) -/
  | nameError (name : String)
  /-- Python `TypeError` (e.g. `CopyFrom` on a non-message) -/
  | typeError (site : String)
  /-- `onnx.defs.get_schema` raised: no schema for the operator -/
  | schemaNotFound (op : String)
  /-- fuel exhaustion of the embedding (no source counterpart) -/
  | outOfFuel
  deriving DecidableEq, Repr

/-- The `NonTopological` error class: both raise sites whose message begins
`Non topologically produced`. -/
def Err.isNonTopological : Err → Bool
  | .nonTopologicalInput _ => true
  | .nonTopologicalOutput _ => true
  | _ => false

/-! ## IR types (the Type Bridge's target)

MLIR types are uniqued structurally within one context, so an IR type
object is modelled by its structure; Python object identity on types
within one context coincides with equality of this representation.
The importer constructs types by printing assembly text and parsing it
back through the (out-of-scope) IR parser; that print-then-parse
round-trip is modelled as the corresponding structural constructor. -/

inductive IrType where
  | f32 | f64 | f16 | bf16
  | f8e4m3fn | f8e4m3fnuz | f8e5m2 | f8e5m2fnuz
  /-- `IntegerType.get_unsigned w` -/
  | ui (w : Nat)
  /-- `IntegerType.get_signed w` -/
  | si (w : Nat)
  /-- `IntegerType.get_signless w` -/
  | signless (w : Nat)
  /-- `ComplexType.get e` -/
  | complex (e : IrType)
  /-- `!torch.vtensor<[dims],e>`; `none` dims print as `?` -/
  | vtensor (dims : List (Option Nat)) (e : IrType)
  /-- `!torch.list<e>` -/
  | listT (e : IrType)
  /-- `!torch.optional<e>` -/
  | optionalT (e : IrType)
  /-- `!torch.none` -/
  | noneT
  /-- the Python string `"!torch.str"` that the STRING entry of
  `ELEM_TYPE_TO_IR_TYPE_CB` returns in place of an IR type object -/
  | strT
  /-- builtin `RankedTensorType` (used for attribute payloads) -/
  | tensorT (dims : List Nat) (e : IrType)
  deriving DecidableEq, Repr

/-- `",".join("?" if d is None else str(d) for d in dims)` -/
def shapeAsm (dims : List (Option Nat)) : String :=
  String.intercalate "," (dims.map (fun d => match d with | none => "?" | some n => toString n))

/-- Python `str(type)` on an IR type object (used as a cache key for list
and optional types). -/
def IrType.strForm : IrType → String
  | .f32 => "f32"
  | .f64 => "f64"
  | .f16 => "f16"
  | .bf16 => "bf16"
  | .f8e4m3fn => "f8E4M3FN"
  | .f8e4m3fnuz => "f8E4M3FNUZ"
  | .f8e5m2 => "f8E5M2"
  | .f8e5m2fnuz => "f8E5M2FNUZ"
  | .ui w => "ui" ++ toString w
  | .si w => "si" ++ toString w
  | .signless w => "i" ++ toString w
  | .complex e => "complex<" ++ e.strForm ++ ">"
  | .vtensor dims e => "!torch.vtensor<[" ++ shapeAsm dims ++ "]," ++ e.strForm ++ ">"
  | .listT e => "!torch.list<" ++ e.strForm ++ ">"
  | .optionalT e => "!torch.optional<" ++ e.strForm ++ ">"
  | .noneT => "!torch.none"
  | .strT => "!torch.str"
  | .tensorT dims e =>
    "tensor<" ++ String.intercalate "x" (dims.map toString) ++ "x" ++ e.strForm ++ ">"

/-- `ELEM_TYPE_TO_IR_TYPE_CB`: TensorProto element-type code → IR type
constructor.  Codes follow `onnx.TensorProto.DataType`. -/
def ELEM_TYPE_TO_IR_TYPE_CB : Nat → Option IrType
  | 1 => some .f32                    -- FLOAT
  | 2 => some (.ui 8)                 -- UINT8
  | 3 => some (.si 8)                 -- INT8
  | 4 => some (.ui 16)                -- UINT16
  | 5 => some (.si 16)                -- INT16
  | 6 => some (.si 32)                -- INT32
  | 7 => some (.si 64)                -- INT64
  | 8 => some .strT                   -- STRING (maps to the str "!torch.str")
  | 9 => some (.signless 1)           -- BOOL
  | 10 => some .f16                   -- FLOAT16
  | 11 => some .f64                   -- DOUBLE
  | 12 => some (.ui 32)               -- UINT32
  | 13 => some (.ui 64)               -- UINT64
  | 14 => some (.complex .f32)        -- COMPLEX64
  | 15 => some (.complex .f64)        -- COMPLEX128
  | 16 => some .bf16                  -- BFLOAT16
  | 17 => some .f8e4m3fn              -- FLOAT8E4M3FN
  | 18 => some .f8e4m3fnuz            -- FLOAT8E4M3FNUZ
  | 19 => some .f8e5m2                -- FLOAT8E5M2
  | 20 => some .f8e5m2fnuz            -- FLOAT8E5M2FNUZ
  | 21 => some (.ui 4)                -- UINT4
  | 22 => some (.si 4)                -- INT4
  | _ => none

/-- The element-type codes (`ELEM_TYPE_INLINE_TENSOR_PROTO_CB` keys) for
which inline (non-raw) tensor data has a decoder. -/
def ELEM_TYPE_INLINE_CODES : List Nat := [1, 9, 2, 3, 5, 6, 7, 11, 12, 13]

/-- IR attribute values produced for tensor literals: the modelled
observables of `tensor_proto_to_attr`. -/
inductive IrAttr where
  /-- `DenseResourceElementsAttr.get_from_buffer(raw_data, name, type)`
  (name sanitization is string munging with no modelled observable) -/
  | resource (name : String) (t : IrType)
  /-- a `DenseElementsAttr` built by an `ELEM_TYPE_INLINE_TENSOR_PROTO_CB`
  entry for the given element-type code -/
  | dense (dataType : Nat) (t : IrType)
  /-- a scalar/list attribute built by an `ATTRIBUTE_TYPE_HANDLERS` entry:
  attribute-type code plus the (opaque) payload -/
  | scalar (typeCode : Nat) (payload : Nat)
  /-- an `ArrayAttr` of dense tensor attributes (TENSORS attributes) -/
  | denseList (elems : List IrAttr)

/-! ## ContextCache (the Type Bridge) -/

structure ContextCache where
  elemTypeMap : List (Nat × IrType)
  listTypeMap : List (String × IrType)
  optionalTypeMap : List (String × IrType)
  vtensorTypeMap : List ((List (Option Nat) × IrType) × IrType)
  deriving DecidableEq, Repr

def ContextCache.init : ContextCache := ⟨[], [], [], []⟩

/-- `ContextCache.tensor_element_type` -/
def ContextCache.tensorElementType (cc : ContextCache) (elemType : Nat) :
    Except Err (IrType × ContextCache) :=
  match pyLookup cc.elemTypeMap elemType with
  | some t => .ok (t, cc)
  | none =>
    match ELEM_TYPE_TO_IR_TYPE_CB elemType with
    | none => .error (.unknownElemType elemType)
    | some t => .ok (t, { cc with elemTypeMap := pyUpd cc.elemTypeMap elemType t })

/-- `ContextCache.get_none_type`: `IrType.parse("!torch.none")`. -/
def ContextCache.getNoneType (_cc : ContextCache) : IrType := .noneT

/-- `ContextCache.get_list_type`.  The parse of the printed assembly is
modelled structurally, so the `MLIRError` branch cannot fire. -/
def ContextCache.getListType (cc : ContextCache) (elementType : IrType) :
    IrType × ContextCache :=
  let key := elementType.strForm
  match pyLookup cc.listTypeMap key with
  | some t => (t, cc)
  | none =>
    let t := IrType.listT elementType
    (t, { cc with listTypeMap := pyUpd cc.listTypeMap key t })

/-- `ContextCache.get_optional_type` -/
def ContextCache.getOptionalType (cc : ContextCache) (elementType : IrType) :
    IrType × ContextCache :=
  let key := elementType.strForm
  match pyLookup cc.optionalTypeMap key with
  | some t => (t, cc)
  | none =>
    let t := IrType.optionalT elementType
    (t, { cc with optionalTypeMap := pyUpd cc.optionalTypeMap key t })

/-- `ContextCache.get_list_element_type`: for a tensor-typed element,
returns the printed `vtensor<...>` form (modelled structurally). -/
def ContextCache.getListElementType (cc : ContextCache) (tp : TypeProto) :
    Except Err (IrType × ContextCache) :=
  let tt := tp.tensorTypeField
  if tt.elemType ≠ 0 then do
    let (elementType, cc) ← cc.tensorElementType tt.elemType
    let dims := (tt.shape.getD []).map (fun d => d.dimValue)
    .ok (IrType.vtensor dims elementType, cc)
  else
    .error .unsupportedListElementType

/-- `ContextCache.get_optional_element_type`.  Note `st.elem_type` in the
source is a protobuf submessage and hence always truthy, so the sequence
branch is taken whenever the tensor branch is not. -/
def ContextCache.getOptionalElementType (cc : ContextCache) (tp : TypeProto) :
    Except Err (IrType × ContextCache) :=
  let tt := tp.tensorTypeField
  if tt.elemType ≠ 0 then do
    let (elementType, cc) ← cc.tensorElementType tt.elemType
    let dims := (tt.shape.getD []).map (fun d => d.dimValue)
    .ok (IrType.vtensor dims elementType, cc)
  else do
    let (elementType, cc) ← cc.getListElementType tp.sequenceElemField
    .ok (IrType.listT elementType, cc)

/-- `ContextCache.get_vtensor_type`: memoized construction of
`!torch.vtensor<[dims],element_type>`, keyed by `(dims, element_type)`.
The parse of the printed assembly is modelled structurally. -/
def ContextCache.getVtensorType (cc : ContextCache) (dims : List (Option Nat))
    (elementType : IrType) : IrType × ContextCache :=
  let key := (dims, elementType)
  match pyLookup cc.vtensorTypeMap key with
  | some t => (t, cc)
  | none =>
    let t := IrType.vtensor dims elementType
    (t, { cc with vtensorTypeMap := pyUpd cc.vtensorTypeMap key t })

/-- `ContextCache.tensor_proto_to_type` -/
def ContextCache.tensorProtoToType (cc : ContextCache) (tp : TensorProto) :
    Except Err (IrType × ContextCache) := do
  let (elementType, cc) ← cc.tensorElementType tp.dataType
  .ok (cc.getVtensorType (tp.dims.map some) elementType)

/-- `ContextCache.tensor_proto_to_builtin_type`:
`RankedTensorType.get(dims, element_type)` raises `TypeError` when handed
the `"!torch.str"` string instead of a type object. -/
def ContextCache.tensorProtoToBuiltinType (cc : ContextCache) (tp : TensorProto) :
    Except Err (IrType × ContextCache) := do
  let (elementType, cc) ← cc.tensorElementType tp.dataType
  if elementType = .strT then
    .error .unsupportedBuiltinTensorType
  else
    .ok (IrType.tensorT tp.dims elementType, cc)

/-- The shape-inference warning text of `type_proto_to_type`. -/
def shapeInferenceWarning : String :=
  "Found a node without a valid type proto. Consider updating the opset_version of the model and/or running the importer with the flag --clear-domain."

/-- `ContextCache.type_proto_to_type`.  The argument is `none` for the `""`
sentinel that `GraphInfo.find_type_proto_for_name` returns when no type is
associated (`tp == ""` in the source).  The second result component is the
list of `warnings.warn` diagnostics emitted by the call. -/
def ContextCache.typeProtoToType (cc : ContextCache) (tp? : Option TypeProto) :
    Except Err (IrType × ContextCache × List String) :=
  match tp? with
  | none => .ok (cc.getNoneType, cc, [shapeInferenceWarning])
  | some tp =>
    let tt := tp.tensorTypeField
    if tt.elemType ≠ 0 then do
      let (elementType, cc) ← cc.tensorElementType tt.elemType
      let dims := (tt.shape.getD []).map (fun d => d.dimValue)
      let (t, cc) := cc.getVtensorType dims elementType
      .ok (t, cc, [])
    else if (tp.sequenceElemField).strNonEmpty then do
      let (elementType, cc) ← cc.getListElementType tp.sequenceElemField
      let (t, cc) := cc.getListType elementType
      .ok (t, cc, [])
    else if (tp.optionalElemField).strNonEmpty then do
      let (elementType, cc) ← cc.getOptionalElementType tp.optionalElemField
      let (t, cc) := cc.getOptionalType elementType
      .ok (t, cc, [])
    else if tp = .empty then
      .ok (cc.getNoneType, cc, [])
    else
      .error .unsupportedTypeProto

/-- `ContextCache.tensor_proto_to_attr` -/
def ContextCache.tensorProtoToAttr (cc : ContextCache) (tp : TensorProto) :
    Except Err (IrAttr × ContextCache) := do
  let (tensorType, cc) ← cc.tensorProtoToBuiltinType tp
  match tp.rawData with
  | some _ => .ok (.resource tp.name tensorType, cc)
  | none =>
    if tp.dataType ∈ ELEM_TYPE_INLINE_CODES then
      .ok (.dense tp.dataType tensorType, cc)
    else
      .error .unhandledTensorProtoData

/-! ## Configuration and graph indexing -/

/-- `Config` -/
structure Config where
  elideInitializedInputs : Bool
  functionExpansionAllowlistsByDomain : Option (List (String × List String))
  functionExpansionDenylistsByDomain : List (String × List String)
  deriving DecidableEq, Repr

/-- The dataclass's default field values. -/
def Config.default : Config :=
  { elideInitializedInputs := true
    functionExpansionAllowlistsByDomain := some [("", ["MeanVarianceNormalization"])]
    functionExpansionDenylistsByDomain := [("", ["CastLike", "Range"])] }

/-- `ModelInfo`: configuration plus the model descriptor.  (`create_module`
only makes an empty module; nothing to model.) -/
structure ModelInfo where
  config : Config
  modelProto : ModelProto

/-- `GraphInfo`: the four lookup tables plus the effective input map. -/
structure GraphInfo where
  modelInfo : ModelInfo
  graphProto : GraphProto
  initializerMap : List (String × TensorProto)
  valueInfoMap : List (String × ValueInfoProto)
  declaredInputMap : List (String × ValueInfoProto)
  outputMap : List (String × ValueInfoProto)
  inputMap : List (String × ValueInfoProto)

/-- `GraphInfo.__init__`.  A failed `assert` is `Err.assertionError`.
A `ModelInfo` object is always truthy, so the `model_info and ...`
conjunct reduces to the config flag. -/
def GraphInfo.init (modelInfo : ModelInfo) (graphProto : GraphProto)
    (isSubgraph : Bool := false) : Except Err GraphInfo :=
  let initializerMap := pyDict (graphProto.initializer.map (fun n => (n.name, n)))
  let valueInfoMap := pyDict (graphProto.valueInfo.map (fun n => (n.name, n)))
  let declaredInputMap := pyDict (graphProto.input.map (fun n => (n.name, n)))
  let outputMap := pyDict (graphProto.output.map (fun n => (n.name, n)))
  if !isSubgraph && modelInfo.config.elideInitializedInputs then
    -- {k: v for k, v in declared_input_map.items() if k not in initializer_map}
    let inputMap := declaredInputMap.filter (fun p => !(pyContains initializerMap p.1))
    .ok ⟨modelInfo, graphProto, initializerMap, valueInfoMap, declaredInputMap, outputMap,
         inputMap⟩
  else
    let inputMap := declaredInputMap
    -- assert input_map.keys().isdisjoint(initializer_map.keys())
    if inputMap.all (fun p => !(pyContains initializerMap p.1)) then
      .ok ⟨modelInfo, graphProto, initializerMap, valueInfoMap, declaredInputMap, outputMap,
           inputMap⟩
    else
      .error (.assertionError "elide_initialized_inputs")

/-- `GraphInfo.find_type_proto_for_name`.  Returns `none` for the source's
`""` sentinel ("no type information is associated"). -/
def GraphInfo.findTypeProtoForName (gi : GraphInfo) (name : String) : Option TypeProto :=
  let valueInfo :=
    match pyLookup gi.valueInfoMap name with
    | some vi => some vi
    | none =>
      match pyLookup gi.outputMap name with
      | some vi => some vi
      | none => pyLookup gi.declaredInputMap name
  match valueInfo with
  | some vi => some vi.type
  | none =>
    match pyLookup gi.initializerMap name with
    | some tensorProto =>
      -- onnx.helper.make_tensor_type_proto(tensor_proto.data_type, tensor_proto.dims)
      some (.tensor ⟨tensorProto.dataType, some (tensorProto.dims.map (fun d => ⟨some d⟩))⟩)
    | none => none

/-! ## Attribute-type codes and handler table -/

/-- `onnx.AttributeProto.AttributeType` codes. -/
def ATTR_UNDEFINED : Nat := 0
def ATTR_FLOAT : Nat := 1
def ATTR_INT : Nat := 2
def ATTR_STRING : Nat := 3
def ATTR_TENSOR : Nat := 4
def ATTR_GRAPH : Nat := 5
def ATTR_FLOATS : Nat := 6
def ATTR_INTS : Nat := 7
def ATTR_STRINGS : Nat := 8
def ATTR_TENSORS : Nat := 9
def ATTR_GRAPHS : Nat := 10
def ATTR_SPARSE_TENSOR : Nat := 11
def ATTR_SPARSE_TENSORS : Nat := 12
def ATTR_TYPE_PROTO : Nat := 13
def ATTR_TYPE_PROTOS : Nat := 14

/-- The fixed `ATTRIBUTE_TYPE_HANDLERS` table, by its three behaviours:
skip (`None`), always-error (`False`), or convert (a handler lambda). -/
inductive AttrHandler where
  | skip
  | alwaysError
  | convert
  deriving DecidableEq, Repr

/-- `ATTRIBUTE_TYPE_HANDLERS` as a partial table; a code outside the table
is the "Unhandled ONNX attribute type code" error. -/
def ATTRIBUTE_TYPE_HANDLERS : Nat → Option AttrHandler
  | 0 => some .alwaysError     -- UNDEFINED
  | 1 => some .convert         -- FLOAT
  | 2 => some .convert         -- INT
  | 3 => some .convert         -- STRING
  | 4 => some .convert         -- TENSOR
  | 5 => some .skip            -- GRAPH
  | 6 => some .convert         -- FLOATS
  | 7 => some .convert         -- INTS
  | 8 => some .convert         -- STRINGS
  | 9 => some .convert         -- TENSORS
  | 10 => some .alwaysError    -- GRAPHS
  | 11 => some .alwaysError    -- SPARSE_TENSOR
  | 12 => some .alwaysError    -- SPARSE_TENSORS
  | 13 => some .alwaysError    -- TYPE_PROTO
  | 14 => some .alwaysError    -- TYPE_PROTOS
  | _ => none

/-! ## Attribute binding (`_bind_attributes_on_node`)

The source's reference-attribute binder.  Its inner
`_bind_attributes_in_subgraph` helper reads the Python name `new_subgraph`
before any assignment to it, so actually reaching that helper raises
`NameError`; moreover the guard
`if not old_attribute.g or len(old_attribute.graphs) == 0` can only be
false when the repeated `graphs` field is nonempty (`old_attribute.g` is a
protobuf submessage and always truthy), so for a singular `GRAPH`-typed
attribute the guard is true and the attribute is returned unchanged,
without recursing into the subgraph. -/

/-- The operator schema's formal-attribute table
(`op_schema.attributes[name].default_value`): formal attribute name →
declared default value (an `AttributeProto`, type `UNDEFINED` when there
is no default). -/
abbrev SchemaAttrs := List (String × AttributeProto)

/-- `_bind_attribute`: bind one attribute of an interior node of a
function template body against the caller's node and the schema defaults.
`ok none` means "drop the attribute from the specialized node". -/
def bindAttribute (oldAttribute : AttributeProto) (callerNode : NodeProto)
    (opSchemaAttrs : SchemaAttrs) : Except Err (Option AttributeProto) :=
  let refName := oldAttribute.refAttrName
  if refName = "" then
    -- `if not old_attribute.g or len(old_attribute.graphs) == 0:`
    -- (first disjunct always false: submessage access is truthy)
    if oldAttribute.graphs.length = 0 then
      .ok (some oldAttribute)
    else
      -- reaching `_bind_attributes_in_subgraph` dereferences the unbound
      -- Python name `new_subgraph`
      .error (.nameError "new_subgraph")
  else
    match callerNode.attrs.find? (fun a => a.name == refName) with
    | some callAttribute =>
      .ok (some (callAttribute.withName oldAttribute.name))
    | none =>
      -- op_schema.attributes[ref_name]  (KeyError when the formal is absent)
      match pyLookup opSchemaAttrs refName with
      | none => .error (.keyError refName)
      | some defaultValue =>
        -- `if default_value and default_value.type:` (message truthy)
        if defaultValue.type ≠ 0 then
          .ok (some (defaultValue.withName oldAttribute.name))
        else
          .ok none

/-- The attribute-list loop of `_bind_attributes_on_node`: bound
attributes are appended in order, dropped ones (`None`) are skipped. -/
def bindAttrList (attrs : List AttributeProto) (callerNode : NodeProto)
    (opSchemaAttrs : SchemaAttrs) : Except Err (List AttributeProto) :=
  match attrs with
  | [] => .ok []
  | a :: rest => do
    let new? ← bindAttribute a callerNode opSchemaAttrs
    let rest' ← bindAttrList rest callerNode opSchemaAttrs
    match new? with
    | some newAttribute => .ok (newAttribute :: rest')
    | none => .ok rest'

/-- `_bind_attributes_on_node` -/
def bindAttributesOnNode (interiorNode : NodeProto) (callerNode : NodeProto)
    (opSchemaAttrs : SchemaAttrs) : Except Err NodeProto := do
  let newAttrs ← bindAttrList interiorNode.attrs callerNode opSchemaAttrs
  match interiorNode with
  | .mk opType domain name input output _ =>
    .ok (.mk opType domain name input output newAttrs)

/-! ## Serialization of descriptors (the memoization key)

`ModuleCache.get_operator_function` keys its cache by
`repr((op_name, op_domain, opset_version, input_type_protos,
output_type_protos, caller_node or caller_node.attribute))`.  The `repr`
of a protobuf descriptor is a deterministic function of its contents;
it is embedded as an explicit serializer (exact text immaterial — only
equal-contents-give-equal-keys is used). -/

def reprTensorProto (tp : TensorProto) : String :=
  "T(" ++ tp.name ++ "," ++ toString tp.dataType ++ ","
    ++ String.intercalate "," (tp.dims.map toString) ++ ","
    ++ (match tp.rawData with
        | none => "-"
        | some bs => "#" ++ String.intercalate "," (bs.map toString)) ++ ")"

def reprOptTensorProto : Option TensorProto → String
  | none => "-"
  | some tp => reprTensorProto tp

mutual
def reprAttributeProto : AttributeProto → String
  | .mk name refName ty g graphs t tensors payload =>
    "A(" ++ name ++ "|" ++ refName ++ "|" ++ toString ty ++ "|"
      ++ reprOptGraphProto g ++ "|" ++ reprGraphProtoList graphs ++ "|"
      ++ reprOptTensorProto t ++ "|"
      ++ String.intercalate ";" (tensors.map reprTensorProto) ++ "|"
      ++ toString payload ++ ")"
def reprOptGraphProto : Option GraphProto → String
  | none => "-"
  | some g => reprGraphProto g
def reprGraphProtoList : List GraphProto → String
  | [] => ""
  | g :: gs => reprGraphProto g ++ ";" ++ reprGraphProtoList gs
def reprGraphProto : GraphProto → String
  | .mk name nodes inits inputs outputs valueInfos =>
    "G(" ++ name ++ "|" ++ reprNodeProtoList nodes ++ "|"
      ++ String.intercalate ";" (inits.map reprTensorProto) ++ "|"
      ++ String.intercalate ";" (inputs.map (fun vi => vi.name ++ ":" ++ reprStr vi.type)) ++ "|"
      ++ String.intercalate ";" (outputs.map (fun vi => vi.name ++ ":" ++ reprStr vi.type)) ++ "|"
      ++ String.intercalate ";" (valueInfos.map (fun vi => vi.name ++ ":" ++ reprStr vi.type)) ++ ")"
def reprNodeProtoList : List NodeProto → String
  | [] => ""
  | n :: ns => reprNodeProto n ++ ";" ++ reprNodeProtoList ns
def reprNodeProto : NodeProto → String
  | .mk opType domain name input output attrs =>
    "N(" ++ opType ++ "|" ++ domain ++ "|" ++ name ++ "|"
      ++ String.intercalate "," input ++ "|" ++ String.intercalate "," output ++ "|"
      ++ reprAttributeProtoList attrs ++ ")"
def reprAttributeProtoList : List AttributeProto → String
  | [] => ""
  | a :: as => reprAttributeProto a ++ ";" ++ reprAttributeProtoList as
end

def reprOptTypeProto : Option TypeProto → String
  | none => "str()"          -- the `""` sentinel
  | some tp => reprStr tp

/-- The memoization key of `ModuleCache.get_operator_function` (step 3 of
the specializer algorithm). -/
def operatorFunctionKey (opName opDomain : String) (opsetVersion : Nat)
    (inputTypeProtos : List TypeProto) (outputTypeProtos : List (Option TypeProto))
    (callerNode : NodeProto) (isContextDependent : Bool) : String :=
  "K(" ++ opName ++ "|" ++ opDomain ++ "|" ++ toString opsetVersion ++ "|"
    ++ String.intercalate ";" (inputTypeProtos.map reprStr) ++ "|"
    ++ String.intercalate ";" (outputTypeProtos.map reprOptTypeProto) ++ "|"
    ++ (if isContextDependent then reprNodeProto callerNode
        else reprAttributeProtoList callerNode.attrs) ++ ")"

/-! ## Operator schema and external oracles -/

/-- The slice of `onnx.defs.OpSchema` the importer reads.  Function-body
lookups returning `none` model the empty-string/`None` failure results. -/
structure OpSchema where
  functionOpsetVersions : List Nat
  contextDependentFunctionOpsetVersions : List Nat
  /-- `op_schema.attributes`: formal attribute name → `default_value` -/
  attrs : SchemaAttrs
  /-- `op_schema.get_function_with_opset_version` -/
  getFunctionWithOpsetVersion : Nat → Option FunctionProto
  /-- `op_schema.get_context_dependent_function_with_opset_version`
  (the serialized node/types arguments are passed structurally) -/
  getContextDependentFunctionWithOpsetVersion :
    Nat → NodeProto → List TypeProto → Option FunctionProto

/-- The external onnx library services (read-only oracle per the spec):
schema registry lookup and the shape-inference pass. -/
structure Oracles where
  /-- `onnx.defs.get_schema(op_name, domain, max_inclusive_version)`;
  `none` models the raised lookup error -/
  getSchema : String → String → Nat → Option OpSchema
  /-- `onnx.shape_inference.infer_shapes(model, check_type=True,
  strict_mode=True, data_prop=True)` -/
  inferShapes : ModelProto → ModelProto

/-- `onnx.helper.find_min_ir_version_for`: an external onnx helper; its
value is never inspected by the importer, so it is modelled as a constant.
-/
def findMinIrVersionFor (_opsetImports : List OpsetImport) : Nat := 10

/-! ## IR construction state -/

/-- A `func_dialect.FuncOp` as observed by the importer: identity (`id`,
fresh per created function), its signature-derived data, and visibility. -/
structure FuncVal where
  id : Nat
  numResults : Nat
  paramNames : List String
  paramTypes : List IrType
  visibilityPrivate : Bool
  deriving DecidableEq, Repr

/-- One IR operation as emitted into the module: its operation name, the
operand values it consumes, and the result values it produces. -/
structure EmittedOp where
  name : String
  operands : List Nat
  results : List Nat
  deriving DecidableEq, Repr

/-- Mutable state threaded through one compilation context: fresh-value
and fresh-function counters, the count of shape-inference oracle
invocations, `ModuleCache._operator_function_map`, the `ContextCache`,
the `warnings.warn` log, and the emitted operations (newest first). -/
structure IRState where
  nextValue : Nat
  nextFunc : Nat
  oracleCalls : Nat
  opFuncMap : List (String × FuncVal)
  cc : ContextCache
  warnings : List String
  ops : List EmittedOp
  deriving DecidableEq, Repr

def IRState.init : IRState :=
  { nextValue := 0, nextFunc := 0, oracleCalls := 0, opFuncMap := [],
    cc := ContextCache.init, warnings := [], ops := [] }

/-- Record an emitted operation. -/
def IRState.emit (st : IRState) (op : EmittedOp) : IRState :=
  { st with ops := op :: st.ops }

/-- One `NodeImporter` frame: its `GraphInfo` and `_nv_map`. -/
structure Frame where
  gi : GraphInfo
  nvMap : List (String × Nat)

/-- Allocate `n` fresh IR values (operation results / block arguments). -/
def freshValues (st : IRState) (n : Nat) : List Nat × IRState :=
  ((List.range n).map (fun i => st.nextValue + i),
   { st with nextValue := st.nextValue + n })

/-- Lift `type_proto_to_type` into the threaded state (cache update plus
warning log). -/
def stTypeProtoToType (st : IRState) (tp? : Option TypeProto) :
    Except Err (IrType × IRState) :=
  match st.cc.typeProtoToType tp? with
  | .error e => .error e
  | .ok (t, cc, ws) => .ok (t, { st with cc := cc, warnings := st.warnings ++ ws })

/-- Map `type_proto_to_type` over a list, threading the state. -/
def stTypesOf (st : IRState) (tps : List (Option TypeProto)) :
    Except Err (List IrType × IRState) :=
  match tps with
  | [] => .ok ([], st)
  | tp :: rest => do
    let (t, st) ← stTypeProtoToType st tp
    let (ts, st) ← stTypesOf st rest
    .ok (t :: ts, st)

/-! ## `_specialize_function_and_create_model` -/

/-- `_specialize_function_and_create_model`.  Notes on Python-level
behaviour embedded here: the `output_proto` variable is created on the
last iteration of the input loop and reused by the output loop, so with
zero input-loop iterations but a nonempty output loop the function raises
`NameError` (appending to a protobuf repeated field copies, so the reuse
is otherwise equivalent to fresh `ValueInfoProto`s); `CopyFrom` on a `""`
output type sentinel raises `TypeError`.  The call to the shape-inference
oracle increments `oracleCalls`. -/
def specializeFunctionAndCreateModel (inferShapes : ModelProto → ModelProto)
    (functionProto : FunctionProto) (opSchemaAttrs : SchemaAttrs)
    (nameToGiveModel : String) (inputTypeProtos : List TypeProto)
    (outputTypeProtos : List (Option TypeProto)) (callerNode : NodeProto)
    (st : IRState) : Except Err (ModelProto × IRState) := do
  let inputPairs := functionProto.input.zip inputTypeProtos
  let inputs : List ValueInfoProto := inputPairs.map (fun p => ⟨p.1, p.2⟩)
  let outputPairs := functionProto.output.zip outputTypeProtos
  if inputPairs.length = 0 ∧ outputPairs.length ≠ 0 then
    .error (.nameError "output_proto")
  else do
    let outputs : List ValueInfoProto ← outputPairs.mapM (fun p =>
      match p.2 with
      | some tp => .ok (⟨p.1, tp⟩ : ValueInfoProto)
      | none => .error (.typeError "CopyFrom"))
    let nodes ← functionProto.node.mapM
      (fun node => bindAttributesOnNode node callerNode opSchemaAttrs)
    let graphProto : GraphProto := .mk nameToGiveModel nodes [] inputs outputs []
    let modelProto : ModelProto :=
      { graph := graphProto
        opsetImport := functionProto.opsetImport
        irVersion := findMinIrVersionFor functionProto.opsetImport }
    let modelProto := inferShapes modelProto
    .ok (modelProto, { st with oracleCalls := st.oracleCalls + 1 })

/-! ## Non-recursive NodeImporter pieces -/

/-- `NodeImporter.get_none`: return the `""`-bound shared none value,
creating and binding a fresh `torch.constant.none` result on first use. -/
def getNone (frame : Frame) (st : IRState) : Nat × Frame × IRState :=
  match pyLookup frame.nvMap "" with
  | some v => (v, frame, st)
  | none =>
    let (vs, st) := freshValues st 1
    let v := vs.headD 0
    let st := st.emit ⟨"torch.constant.none", [], [v]⟩
    (v, { frame with nvMap := pyUpd frame.nvMap "" v }, st)

/-- `NodeImporter.import_initializer`: convert the literal, emit the
`torch.operator "onnx.Constant"` and bind its result. -/
def importInitializer (frame : Frame) (st : IRState) (initializer : TensorProto)
    (externName : Option String := none) : Except Err (Nat × Frame × IRState) := do
  -- iname = extern_name if extern_name else initializer.name
  let iname := match externName with
    | some n => if n = "" then initializer.name else n
    | none => initializer.name
  let (_valueAttr, cc) ← st.cc.tensorProtoToAttr initializer
  let (_vtensorType, cc) ← cc.tensorProtoToType initializer
  let st := { st with cc := cc }
  let (vs, st) := freshValues st 1
  let v := vs.headD 0
  let st := st.emit ⟨"torch.operator onnx.Constant", [], [v]⟩
  .ok (v, { frame with nvMap := pyUpd frame.nvMap iname v }, st)

/-- The initializer loop of `import_all`. -/
def importInitializerList (frame : Frame) (st : IRState) :
    List TensorProto → Except Err (Frame × IRState)
  | [] => .ok (frame, st)
  | init :: rest => do
    let (_, frame, st) ← importInitializer frame st init
    importInitializerList frame st rest

/-- `_get_attr(node, attr_name, is_required=False)` -/
def getAttr? (node : NodeProto) (attrName : String) : Option AttributeProto :=
  node.attrs.find? (fun a => a.name == attrName)

/-- `NodeImporter._handle_node_Constant`: `ok none` = not handled (fall
through to the general import), `ok (some _)` = handled. -/
def handleNodeConstant (frame : Frame) (st : IRState) (node : NodeProto) :
    Except Err (Option (Frame × IRState)) :=
  match getAttr? node "value" with
  | none => .ok none
  | some valueProto =>
    if valueProto.type ≠ ATTR_TENSOR then
      .error (.assertionError "value_proto.type == TENSOR")
    else if node.output.length ≠ 1 then
      .error (.assertionError "len(node.output) == 1")
    else do
      let constName := node.output.headD ""
      let t := valueProto.t.getD ⟨"", 0, [], none⟩
      let (_, frame, st) ← importInitializer frame st t (some constName)
      let frame := { frame with gi :=
        { frame.gi with initializerMap := pyUpd frame.gi.initializerMap constName t } }
      .ok (some (frame, st))

/-- The conversion of one attribute by its `ATTRIBUTE_TYPE_HANDLERS`
lambda. -/
def convertAttr (cc : ContextCache) (onnxAttr : AttributeProto) :
    Except Err (IrAttr × ContextCache) :=
  if onnxAttr.type = ATTR_TENSOR then
    cc.tensorProtoToAttr (onnxAttr.t.getD ⟨"", 0, [], none⟩)
  else if onnxAttr.type = ATTR_TENSORS then
    let rec go (cc : ContextCache) : List TensorProto →
        Except Err (List IrAttr × ContextCache)
      | [] => .ok ([], cc)
      | t :: rest => do
        let (a, cc) ← cc.tensorProtoToAttr t
        let (rest', cc) ← go cc rest
        .ok (a :: rest', cc)
    do
      let (elems, cc) ← go cc onnxAttr.tensors
      .ok (.denseList elems, cc)
  else
    .ok (.scalar onnxAttr.type onnxAttr.payload, cc)

/-- The loop body of `NodeImporter.import_attributes`, building the
attribute dictionary (`torch.onnx.`-prefixed keys). -/
def importAttrsLoop (cc : ContextCache) (acc : List (String × IrAttr)) :
    List AttributeProto → Except Err (List (String × IrAttr) × ContextCache)
  | [] => .ok (acc, cc)
  | onnxAttr :: rest =>
    match ATTRIBUTE_TYPE_HANDLERS onnxAttr.type with
    | none => .error (.unhandledAttrTypeCode onnxAttr.type)
    | some .skip => importAttrsLoop cc acc rest
    | some .alwaysError => .error (.unsupportedAttrType onnxAttr.type)
    | some .convert => do
      let (result, cc) ← convertAttr cc onnxAttr
      importAttrsLoop cc (pyUpd acc ("torch.onnx." ++ onnxAttr.name) result) rest

/-- `NodeImporter.import_attributes` -/
def importAttrs (cc : ContextCache) (onnxAttrs : List AttributeProto) :
    Except Err (List (String × IrAttr) × ContextCache) :=
  importAttrsLoop cc [] onnxAttrs

/-- The graph-output resolution loop at the end of `import_all`. -/
def resolveOutputs (frame : Frame) : Except Err (List Nat) :=
  frame.gi.outputMap.mapM (fun p =>
    match pyLookup frame.nvMap p.1 with
    | some v => .ok v
    | none => .error (.nonTopologicalOutput p.1))

/-- `NodeImporter.define_function` (the part before `import_all`): build
the function type from the effective inputs and declared outputs, create
the function and its entry block, and bind each block argument under its
input name.  (`_populate_graph_attrs` attaches metadata attributes only.)
-/
def defineFunction (gi : GraphInfo) (st : IRState) (priv : Bool) :
    Except Err (FuncVal × Frame × IRState) := do
  let (inputTypes, st) ← stTypesOf st (gi.inputMap.map (fun p => some p.2.type))
  let (outputTypes, st) ← stTypesOf st (gi.outputMap.map (fun p => some p.2.type))
  let funcId := st.nextFunc
  let st := { st with nextFunc := st.nextFunc + 1 }
  let (args, st) := freshValues st inputTypes.length
  let nvMap := ((gi.inputMap.map Prod.fst).zip args).foldl
    (fun m p => pyUpd m p.1 p.2) []
  .ok ({ id := funcId, numResults := outputTypes.length,
         paramNames := gi.inputMap.map Prod.fst, paramTypes := inputTypes,
         visibilityPrivate := priv },
       ⟨gi, nvMap⟩, st)

/-- Byte-wise string order used by Python `sorted` on `str` keys. -/
def strLe (a b : String) : Bool := a < b || a == b

/-- Stable insertion into a `strLe`-sorted list. -/
def sortedInsert (x : String) : List String → List String
  | [] => [x]
  | y :: ys => if strLe y x then y :: sortedInsert x ys else x :: y :: ys

/-- Python `sorted` for strings (stable; structural recursion so that it
evaluates definitionally). -/
def pySorted : List String → List String
  | [] => []
  | x :: xs => sortedInsert x (pySorted xs)

/-- The function-template version selection of
`ModuleCache.get_operator_function` (source lines 994-1013): the highest
non-context-dependent (`ncd`) and context-dependent (`cd`) function opset
versions not exceeding the requested opset version, combined by
`if ncd is not None and (cd is None or cd < ncd)` — so a tie goes to the
context-dependent template.  `none` = "no relevant function definition".
The `Bool` is `is_context_dependent`. -/
def selectFunctionVersion (functionOpsetVersions : List Nat)
    (contextDependentFunctionOpsetVersions : List Nat) (opsetVersion : Nat) :
    Option (Nat × Bool) :=
  let ncdFunctionVersion :=
    (functionOpsetVersions.filter (fun ver => ver ≤ opsetVersion)).max?
  let cdFunctionVersion :=
    (contextDependentFunctionOpsetVersions.filter
      (fun ver => ver ≤ opsetVersion)).max?
  match ncdFunctionVersion, cdFunctionVersion with
  | none, none => none
  | some n, none => some (n, false)
  | some n, some c => if c < n then some (n, false) else some (c, true)
  | none, some c => some (c, true)

/-- The nested-frame seeding of `NodeImporter.import_regions`: bind each
subgraph block argument under its declared input name, then copy every
binding of the enclosing scope (`for k in self._nv_map: imp._nv_map[k] =
self._nv_map[k]`), the latter overwriting the former on name collisions.
-/
def seedSubgraphFrame (blockNames : List String) (args : List Nat)
    (enclosing : List (String × Nat)) : List (String × Nat) :=
  let nvMap0 := (blockNames.zip args).foldl (fun m p => pyUpd m p.1 p.2) []
  enclosing.foldl (fun m p => pyUpd m p.1 p.2) nvMap0

/-! ## The recursive import process

`import_all` → `import_node` → (`get_operator_function` →
`define_function`+`import_all` | `import_regions` → `import_all`), with an
explicit fuel parameter (see the file header). -/

mutual

/-- `NodeImporter.import_all(func)`: initializers, the shared none value,
every node in descriptor order, then output resolution.  Returns the
final frame, state, and the terminator operands (the resolved outputs). -/
def importAll : Nat → Oracles → Bool → Frame → IRState →
    Except Err (Frame × IRState × List Nat)
  | 0, _, _, _, _ => .error .outOfFuel
  | fuel + 1, orc, _func, frame, st => do
    let (frame, st) ← importInitializerList frame st
      (frame.gi.initializerMap.map Prod.snd)
    let (_, frame, st) := getNone frame st
    let (frame, st) ← importNodeList fuel orc frame st frame.gi.graphProto.node
    let outputs ← resolveOutputs frame
    -- ReturnOp (func=True) / torch.operator_terminator: no modelled observable
    .ok (frame, st, outputs)

/-- The node loop of `import_all`. -/
def importNodeList : Nat → Oracles → Frame → IRState → List NodeProto →
    Except Err (Frame × IRState)
  | 0, _, _, _, _ => .error .outOfFuel
  | _ + 1, _, frame, st, [] => .ok (frame, st)
  | fuel + 1, orc, frame, st, node :: rest => do
    let (frame, st) ← importNode fuel orc frame st node
    importNodeList fuel orc frame st rest

/-- `NodeImporter.import_node`: special-operator dispatch
(`_handle_node_{op_type}`; only `Constant` exists) falling through to the
general import. -/
def importNode : Nat → Oracles → Frame → IRState → NodeProto →
    Except Err (Frame × IRState)
  | 0, _, _, _, _ => .error .outOfFuel
  | fuel + 1, orc, frame, st, node =>
    if node.opType = "Constant" then
      match handleNodeConstant frame st node with
      | .error e => .error e
      | .ok (some (frame, st)) => .ok (frame, st)
      | .ok none => importNodeGeneral fuel orc frame st node
    else
      importNodeGeneral fuel orc frame st node

/-- The general node import of `import_node`: resolve inputs (hard
`NonTopological` error if unbound), resolve output types, consult the
specializer, then either emit a call to the specialized function or a
generic `torch.operator` with attribute regions; finally bind the results
under the output names. -/
def importNodeGeneral : Nat → Oracles → Frame → IRState → NodeProto →
    Except Err (Frame × IRState)
  | 0, _, _, _, _ => .error .outOfFuel
  | fuel + 1, orc, frame, st, node => do
    let inputValues ← node.input.mapM (fun inputName =>
      match pyLookup frame.nvMap inputName with
      | some v => Except.ok v
      | none => .error (.nonTopologicalInput inputName))
    let inputTypeProtos := node.input.map (fun inputName =>
      (frame.gi.findTypeProtoForName inputName).getD .empty)
    let outputNames := node.output
    let outputTypeProtos := node.output.map
      (fun outputName => frame.gi.findTypeProtoForName outputName)
    let (outputTypes, st) ← stTypesOf st outputTypeProtos
    let opsetVersion ←
      match frame.gi.modelInfo.modelProto.opsetImport.find?
          (fun oi => oi.domain == node.domain) with
      | some oi => Except.ok oi.version
      | none => .error (.nameError "opset_version")
    let (operatorFuncOp?, st) ← getOperatorFunction fuel orc node.opType
      node.domain opsetVersion inputTypeProtos outputTypeProtos node
      frame.gi.modelInfo.config st
    match operatorFuncOp? with
    | some funcVal => do
      -- func_dialect.CallOp(operator_func_op, input_values)
      let (results, st) := freshValues st funcVal.numResults
      let st := st.emit ⟨"func.call " ++ toString funcVal.id, inputValues, results⟩
      let nvMap2 := (outputNames.zip results).foldl (fun m p => pyUpd m p.1 p.2) frame.nvMap
      .ok ({ frame with nvMap := nvMap2 }, st)
    | none => do
      let (_attrs, cc) ← importAttrs st.cc node.attrs
      let st := { st with cc := cc }
      -- Operation.create("torch.operator", results=output_types, ...)
      let (results, st) := freshValues st outputTypes.length
      let st := st.emit ⟨"torch.operator onnx." ++ node.opType, inputValues, results⟩
      let st ← importRegions fuel orc frame st node.attrs
      let nvMap2 := (outputNames.zip results).foldl (fun m p => pyUpd m p.1 p.2) frame.nvMap
      .ok ({ frame with nvMap := nvMap2 }, st)

/-- `NodeImporter.import_regions`: collect `GRAPH`-typed attributes,
iterate them by sorted attribute name, and import each subgraph into a
fresh nested frame. -/
def importRegions : Nat → Oracles → Frame → IRState → List AttributeProto →
    Except Err IRState
  | 0, _, _, _, _ => .error .outOfFuel
  | fuel + 1, orc, frame, st, onnxAttrs =>
    let attrMap := pyDict ((onnxAttrs.filter (fun a => a.type == ATTR_GRAPH)).map
      (fun a => (a.name, a)))
    let sortedNames := pySorted (attrMap.map Prod.fst)
    importRegionList fuel orc frame st (sortedNames.filterMap
      (fun n => pyLookup attrMap n))

/-- The per-region loop of `import_regions`: block types and arguments
from the subgraph's declared inputs, a nested `GraphInfo`
(`is_subgraph=True`), a nested frame seeded with the block arguments and
then every binding of the enclosing scope, then a full nested
`import_all(False)`. -/
def importRegionList : Nat → Oracles → Frame → IRState → List AttributeProto →
    Except Err IRState
  | 0, _, _, _, _ => .error .outOfFuel
  | _ + 1, _, _, st, [] => .ok st
  | fuel + 1, orc, frame, st, attr :: rest => do
    let g := attr.g.getD (.mk "" [] [] [] [] [])
    let (blockTypes, st) ← stTypesOf st (g.input.map (fun inp => some inp.type))
    let blockNames := g.input.map (fun inp => inp.name)
    let (args, st) := freshValues st blockTypes.length
    let graphInfo ← GraphInfo.init frame.gi.modelInfo g true
    let nvMap1 := seedSubgraphFrame blockNames args frame.nvMap
    let (_, st, _) ← importAll fuel orc false ⟨graphInfo, nvMap1⟩ st
    importRegionList fuel orc frame st rest

/-- `ModuleCache.get_operator_function`: allow/deny policy, schema lookup,
function-template version selection, memoization key, and on a cache miss
the specialize-infer-import pipeline. -/
def getOperatorFunction : Nat → Oracles → String → String → Nat →
    List TypeProto → List (Option TypeProto) → NodeProto → Config → IRState →
    Except Err (Option FuncVal × IRState)
  | 0, _, _, _, _, _, _, _, _, _ => .error .outOfFuel
  | fuel + 1, orc, opName, opDomain, opsetVersion, inputTypeProtos,
      outputTypeProtos, callerNode, config, st =>
    -- The source's local variables `allowlists`, `denylists`, `key` and
    -- `function_proto` are each read straight from their definitions here.
    -- if allowlists is not None and not (domain in allowlists and name in allowlists[domain])
    if (match config.functionExpansionAllowlistsByDomain with
        | none => false
        | some al => !((pyLookup al opDomain).elim false
            (fun names => decide (opName ∈ names)))) then
      .ok (none, st)
    -- if op_domain in denylists and op_name in denylists[op_domain]
    else if ((pyLookup config.functionExpansionDenylistsByDomain opDomain).elim
        false (fun names => decide (opName ∈ names))) then
      .ok (none, st)
    else
      match orc.getSchema opName opDomain opsetVersion with
      | none => .error (.schemaNotFound opName)
      | some opSchema =>
        match selectFunctionVersion opSchema.functionOpsetVersions
            opSchema.contextDependentFunctionOpsetVersions opsetVersion with
        | none => .ok (none, st)
        | some (specificVersion, isContextDependent) =>
          match pyLookup st.opFuncMap (operatorFunctionKey opName opDomain
              opsetVersion inputTypeProtos outputTypeProtos callerNode
              isContextDependent) with
          | some existing => .ok (some existing, st)
          | none =>
            match (if isContextDependent then
                opSchema.getContextDependentFunctionWithOpsetVersion
                  specificVersion callerNode inputTypeProtos
              else opSchema.getFunctionWithOpsetVersion specificVersion) with
            | none => .error .specializationFailure
            | some functionProto => do
              let (tmpModelProto, st) ← specializeFunctionAndCreateModel
                orc.inferShapes functionProto opSchema.attrs
                (operatorFunctionKey opName opDomain opsetVersion
                  inputTypeProtos outputTypeProtos callerNode
                  isContextDependent)
                inputTypeProtos outputTypeProtos callerNode st
              -- tmp_model_info = ModelInfo(tmp_model_proto): default Config
              let tmpModelInfo : ModelInfo := ⟨Config.default, tmpModelProto⟩
              let tmpGraphInfo ← GraphInfo.init tmpModelInfo tmpModelProto.graph
              let (funcVal, tmpFrame, st) ← defineFunction tmpGraphInfo st true
              let (_, st, _) ← importAll fuel orc true tmpFrame st
              let newMap := pyUpd st.opFuncMap (operatorFunctionKey opName
                opDomain opsetVersion inputTypeProtos outputTypeProtos
                callerNode isContextDependent) funcVal
              .ok (some funcVal, { st with opFuncMap := newMap })

end

/-! ## Lemmas about the dictionary model -/

theorem pyLookup_nil {κ α : Type} [BEq κ] (k : κ) :
    pyLookup ([] : List (κ × α)) k = none := rfl

theorem pyLookup_map_replace_self {κ α : Type} [BEq κ] (d : List (κ × α))
    (k : κ) (v : α) (h : (d.find? (fun p => p.1 == k)).isSome) :
    pyLookup (d.map (fun p => if p.1 == k then (p.1, v) else p)) k = some v := by
  induction d with
  | nil => simp [List.find?] at h
  | cons p rest ih =>
    by_cases hp : p.1 == k
    · simp [pyLookup, List.find?, hp]
    · simp only [List.find?, hp] at h
      simp only [List.map, pyLookup, List.find?, hp, if_neg]
      simpa [pyLookup, hp] using ih h

theorem pyLookup_append_single_self {κ α : Type} [BEq κ] [LawfulBEq κ]
    (d : List (κ × α)) (k : κ) (v : α)
    (h : (d.find? (fun p => p.1 == k)).isSome = false) :
    pyLookup (d ++ [(k, v)]) k = some v := by
  induction d with
  | nil => simp [pyLookup, List.find?]
  | cons p rest ih =>
    by_cases hp : p.1 == k
    · simp [List.find?, hp] at h
    · simp only [List.find?, hp] at h
      simpa [pyLookup, List.find?, hp] using ih h

theorem pyLookup_pyUpd_self {κ α : Type} [BEq κ] [LawfulBEq κ]
    (d : List (κ × α)) (k : κ) (v : α) :
    pyLookup (pyUpd d k v) k = some v := by
  unfold pyUpd
  by_cases h : (d.find? (fun p => p.1 == k)).isSome
  · simpa [h] using pyLookup_map_replace_self d k v h
  · simp only [Bool.not_eq_true] at h
    simpa [h] using pyLookup_append_single_self d k v h

theorem pyLookup_map_replace_ne {κ α : Type} [BEq κ] [LawfulBEq κ]
    (d : List (κ × α)) (k k' : κ) (v : α) (hne : k' ≠ k) :
    pyLookup (d.map (fun p => if p.1 == k then (p.1, v) else p)) k' =
      pyLookup d k' := by
  induction d with
  | nil => rfl
  | cons p rest ih =>
    by_cases hp : p.1 == k
    · have hk : p.1 = k := eq_of_beq hp
      have hp' : (p.1 == k') = false := by
        rw [hk]; exact beq_eq_false_iff_ne.mpr (fun hh => hne hh.symm)
      simp [pyLookup, List.find?, hp, hp'] at ih ⊢
      exact ih
    · simp only [List.map, pyLookup, List.find?, hp, if_neg]
      by_cases hp' : p.1 == k'
      · simp [hp']
      · simp only [hp', Bool.false_eq_true, if_false]
        simpa [pyLookup, hp'] using ih

theorem pyLookup_append_single_ne {κ α : Type} [BEq κ] [LawfulBEq κ]
    (d : List (κ × α)) (k k' : κ) (v : α) (hne : k' ≠ k) :
    pyLookup (d ++ [(k, v)]) k' = pyLookup d k' := by
  induction d with
  | nil =>
    simp [pyLookup, List.find?, beq_eq_false_iff_ne.mpr (fun hh => hne hh.symm)]
  | cons p rest ih =>
    by_cases hp : p.1 == k'
    · simp [pyLookup, List.find?, hp]
    · simp only [List.cons_append]
      simpa [pyLookup, List.find?, hp] using ih

theorem pyLookup_pyUpd_ne {κ α : Type} [BEq κ] [LawfulBEq κ]
    (d : List (κ × α)) (k k' : κ) (v : α) (hne : k' ≠ k) :
    pyLookup (pyUpd d k v) k' = pyLookup d k' := by
  unfold pyUpd
  by_cases h : (d.find? (fun p => p.1 == k)).isSome
  · simpa [h] using pyLookup_map_replace_ne d k k' v hne
  · simpa [h] using pyLookup_append_single_ne d k k' v hne

/-- Updating any key preserves definedness of every key. -/
theorem pyLookup_pyUpd_isSome {κ α : Type} [BEq κ] [LawfulBEq κ]
    (d : List (κ × α)) (k k' : κ) (v : α)
    (h : (pyLookup d k').isSome) : (pyLookup (pyUpd d k v) k').isSome := by
  by_cases hk : k' = k
  · subst hk; simp [pyLookup_pyUpd_self]
  · rwa [pyLookup_pyUpd_ne d k k' v hk]

/-- Folding updates over a list whose keys avoid `k` leaves `k`'s binding
unchanged. -/
theorem pyLookup_foldl_pyUpd_not_mem {κ α : Type} [BEq κ] [LawfulBEq κ]
    (l : List (κ × α)) (k : κ) (h : k ∉ l.map Prod.fst) :
    ∀ m0, pyLookup (l.foldl (fun m p => pyUpd m p.1 p.2) m0) k = pyLookup m0 k := by
  induction l with
  | nil => intro m0; rfl
  | cons p rest ih =>
    intro m0
    simp only [List.map, List.mem_cons, not_or] at h
    simp only [List.foldl]
    rw [ih h.2, pyLookup_pyUpd_ne _ _ _ _ h.1]

/-- Folding updates over a list with `Nodup` keys binds each key to its
listed value. -/
theorem pyLookup_foldl_pyUpd_mem {κ α : Type} [BEq κ] [LawfulBEq κ]
    (l : List (κ × α)) (k : κ) (v : α)
    (hnd : (l.map Prod.fst).Nodup) (hmem : (k, v) ∈ l) :
    ∀ m0, pyLookup (l.foldl (fun m p => pyUpd m p.1 p.2) m0) k = some v := by
  induction l with
  | nil => simp at hmem
  | cons p rest ih =>
    intro m0
    simp only [List.map, List.nodup_cons] at hnd
    rcases List.mem_cons.mp hmem with hmem | hmem
    · subst hmem
      simp only [List.foldl]
      rw [pyLookup_foldl_pyUpd_not_mem rest k hnd.1, pyLookup_pyUpd_self]
    · exact ih hnd.2 hmem _

/-- Folding updates preserves definedness. -/
theorem pyLookup_foldl_pyUpd_isSome {κ α : Type} [BEq κ] [LawfulBEq κ]
    (l : List (κ × α)) (k : κ) :
    ∀ m0, (pyLookup m0 k).isSome →
      (pyLookup (l.foldl (fun m p => pyUpd m p.1 p.2) m0) k).isSome := by
  induction l with
  | nil => exact fun _ h => h
  | cons p rest ih =>
    exact fun m0 h => ih _ (pyLookup_pyUpd_isSome _ _ _ _ h)

/-- A successful lookup exhibits a member with that key and value. -/
theorem pyLookup_mem {κ α : Type} [BEq κ] [LawfulBEq κ] (d : List (κ × α))
    (k : κ) (v : α) (h : pyLookup d k = some v) : (k, v) ∈ d := by
  induction d with
  | nil => simp [pyLookup, List.find?] at h
  | cons p rest ih =>
    by_cases hp : p.1 == k
    · have h1 : p.1 = k := eq_of_beq hp
      simp [pyLookup, List.find?, hp] at h
      cases p with
      | mk a b =>
        subst h1
        subst h
        exact List.mem_cons_self _ _
    · simp only [pyLookup, List.find?, hp] at h
      exact List.mem_cons.mpr (Or.inr (ih h))

theorem pyLookup_isSome_iff_mem_keys {κ α : Type} [BEq κ] [LawfulBEq κ]
    (d : List (κ × α)) (k : κ) :
    (pyLookup d k).isSome ↔ k ∈ d.map Prod.fst := by
  induction d with
  | nil => simp [pyLookup, List.find?]
  | cons p rest ih =>
    by_cases hp : p.1 == k
    · have h1 : p.1 = k := eq_of_beq hp
      simp [pyLookup, List.find?, hp, h1]
    · have hne : ¬ (k = p.1) := fun hh => by simp [hh] at hp
      have hstep : pyLookup (p :: rest) k = pyLookup rest k := by
        simp [pyLookup, List.find?, hp]
      rw [hstep, ih]
      simp only [List.map, List.mem_cons]
      constructor
      · exact fun hh => Or.inr hh
      · rintro (hh | hh)
        · exact absurd hh hne
        · exact hh

/-! ## Type-cache invariant and the Type Bridge claims -/

/-- The cache-consistency invariant of a `ContextCache`: every cached
element type is the one the fixed table yields for its code, and every
cached vtensor type is the structural type of its key.  It holds for the
fresh cache and is preserved by every cache operation (the importer never
populates the maps any other way). -/
def ContextCache.WF (cc : ContextCache) : Prop :=
  (∀ code t, pyLookup cc.elemTypeMap code = some t →
     ELEM_TYPE_TO_IR_TYPE_CB code = some t) ∧
  (∀ dims et t, pyLookup cc.vtensorTypeMap (dims, et) = some t →
     t = IrType.vtensor dims et)

theorem ContextCache.WF_init : ContextCache.WF ContextCache.init := by
  constructor
  · intro code t h; simp [ContextCache.init, pyLookup, List.find?] at h
  · intro dims et t h; simp [ContextCache.init, pyLookup, List.find?] at h

/-- A second `tensor_element_type` call with the same code returns the
same object and leaves the cache untouched. -/
theorem tensorElementType_stable (cc : ContextCache) (code : Nat)
    (t : IrType) (cc' : ContextCache)
    (h : cc.tensorElementType code = .ok (t, cc')) :
    cc'.tensorElementType code = .ok (t, cc') := by
  unfold ContextCache.tensorElementType at h ⊢
  cases hl : pyLookup cc.elemTypeMap code with
  | some t0 =>
    rw [hl] at h
    cases h
    rw [hl]
  | none =>
    rw [hl] at h
    cases ht : ELEM_TYPE_TO_IR_TYPE_CB code with
    | none => rw [ht] at h; cases h
    | some t0 =>
      rw [ht] at h
      cases h
      simp only
      rw [pyLookup_pyUpd_self]

/-- `tensor_element_type` under the invariant: the returned type is the
table's type for the code, and the invariant is preserved. -/
theorem tensorElementType_WF (cc : ContextCache) (code : Nat) (t : IrType)
    (cc' : ContextCache) (hwf : ContextCache.WF cc)
    (h : cc.tensorElementType code = .ok (t, cc')) :
    ELEM_TYPE_TO_IR_TYPE_CB code = some t ∧ ContextCache.WF cc' := by
  unfold ContextCache.tensorElementType at h
  cases hl : pyLookup cc.elemTypeMap code with
  | some t0 =>
    rw [hl] at h
    cases h
    exact ⟨hwf.1 code t hl, hwf⟩
  | none =>
    rw [hl] at h
    cases ht : ELEM_TYPE_TO_IR_TYPE_CB code with
    | none => rw [ht] at h; cases h
    | some t0 =>
      rw [ht] at h
      cases h
      refine ⟨rfl, ?_, hwf.2⟩
      intro c t' hc
      by_cases hcc : c = code
      · subst hcc
        rw [pyLookup_pyUpd_self] at hc
        cases hc
        exact ht
      · rw [pyLookup_pyUpd_ne _ _ _ _ hcc] at hc
        exact hwf.1 c t' hc

/-- A second `get_vtensor_type` call with the same key returns the same
object and leaves the cache untouched. -/
theorem getVtensorType_stable (cc : ContextCache) (dims : List (Option Nat))
    (et : IrType) :
    ((cc.getVtensorType dims et).2).getVtensorType dims et =
      cc.getVtensorType dims et := by
  unfold ContextCache.getVtensorType
  cases hl : pyLookup cc.vtensorTypeMap (dims, et) with
  | some t => simp [hl]
  | none => simp [hl, pyLookup_pyUpd_self]

/-- `get_vtensor_type` under the invariant returns the structural type of
its key, preserving the invariant. -/
theorem getVtensorType_WF (cc : ContextCache) (dims : List (Option Nat))
    (et : IrType) (hwf : ContextCache.WF cc) :
    (cc.getVtensorType dims et).1 = IrType.vtensor dims et ∧
      ContextCache.WF (cc.getVtensorType dims et).2 := by
  unfold ContextCache.getVtensorType
  cases hl : pyLookup cc.vtensorTypeMap (dims, et) with
  | some t =>
    simp only [hl]
    exact ⟨hwf.2 dims et t hl, hwf⟩
  | none =>
    simp only [hl]
    refine ⟨by trivial, hwf.1, ?_⟩
    intro dims' et' t' hc
    by_cases hk : (dims', et') = (dims, et)
    · rw [hk] at hc
      rw [pyLookup_pyUpd_self] at hc
      cases hc
      cases hk
      rfl
    · rw [pyLookup_pyUpd_ne _ _ _ _ hk] at hc
      exact hwf.2 dims' et' t' hc

/-- C5: within one compilation context, type construction is memoized by
semantic identity: (i) a repeated `tensor_element_type` call with the same
supported code returns the identical cached type object with the cache
unchanged; (ii) a repeated `get_vtensor_type` call with the same dims and
element type returns the identical cached object with the cache unchanged;
(iii) under the cache invariant (which the fresh cache satisfies and all
cache operations preserve), two shaped-tensor constructions yield the
identical object exactly when their dims and element types agree — so
identical semantic types give identical objects and differing shapes give
distinct objects, and type objects are safe to compare by identity. -/
theorem C5_type_memoization :
    (∀ (cc : ContextCache) (code : Nat) (t : IrType) (cc' : ContextCache),
       cc.tensorElementType code = .ok (t, cc') →
       cc'.tensorElementType code = .ok (t, cc')) ∧
    (∀ (cc : ContextCache) (dims : List (Option Nat)) (et : IrType),
       ((cc.getVtensorType dims et).2).getVtensorType dims et =
         cc.getVtensorType dims et) ∧
    (∀ (cc cc' : ContextCache) (dims dims' : List (Option Nat)) (et et' : IrType),
       ContextCache.WF cc → ContextCache.WF cc' →
       ((cc.getVtensorType dims et).1 = (cc'.getVtensorType dims' et').1 ↔
         (dims = dims' ∧ et = et'))) := by
  refine ⟨tensorElementType_stable, getVtensorType_stable, ?_⟩
  intro cc cc' dims dims' et et' hwf hwf'
  rw [(getVtensorType_WF cc dims et hwf).1, (getVtensorType_WF cc' dims' et' hwf').1]
  simp [IrType.vtensor.injEq]

theorem C5_type_memoization_witness :
    (ContextCache.init.tensorElementType 1 =
       .ok (.f32, ⟨[(1, .f32)], [], [], []⟩) ∧
     (ContextCache.init.getVtensorType [some 2] .f32).1 ≠
       (ContextCache.init.getVtensorType [some 3] .f32).1 ∧
     ((ContextCache.init.getVtensorType [some 2] .f32).2).getVtensorType
         [some 2] .f32 = ContextCache.init.getVtensorType [some 2] .f32) := by
  refine ⟨by rfl, ?_, C5_type_memoization.2.1 ContextCache.init [some 2] .f32⟩
  intro hc
  have h := (C5_type_memoization.2.2 ContextCache.init ContextCache.init
    [some 2] [some 3] .f32 .f32 ContextCache.WF_init ContextCache.WF_init).mp hc
  simp at h

/-- C7 (counterexample): a tensor type descriptor of unknown rank — the
`shape` field absent — does not fail: it is converted exactly like the
rank-0 descriptor, producing the rank-0 `!torch.vtensor<[],f32>` type. -/
theorem C7_counterexample :
    ContextCache.init.typeProtoToType (some (.tensor ⟨1, none⟩)) =
      .ok (.vtensor [] .f32,
           ⟨[(1, .f32)], [], [], [(([], .f32), .vtensor [] .f32)]⟩, []) := by
  rfl

/-- C7 (amended): an empty dims sequence produces the rank-0 tensor type
(not an unknown-rank type); a tensor descriptor with an absent shape
(unknown rank) is indistinguishable from the rank-0 one at conversion —
`tt.shape.dim` reads the default empty list — and likewise produces the
rank-0 tensor type instead of failing. -/
theorem C7_rank0_tensor :
    (∀ (cc : ContextCache) (et : IrType), ContextCache.WF cc →
       (cc.getVtensorType [] et).1 = IrType.vtensor [] et) ∧
    (∀ (cc : ContextCache) (code : Nat) (t : IrType), ContextCache.WF cc →
       ELEM_TYPE_TO_IR_TYPE_CB code = some t →
       ∀ shape?, shape? = none ∨ shape? = some [] →
       ∃ cc', cc.typeProtoToType (some (.tensor ⟨code, shape?⟩)) =
         .ok (IrType.vtensor [] t, cc', [])) := by
  constructor
  · intro cc et hwf
    exact (getVtensorType_WF cc [] et hwf).1
  · intro cc code t hwf htable shape? hshape
    have hcode : code ≠ 0 := by
      intro h0; rw [h0] at htable; simp [ELEM_TYPE_TO_IR_TYPE_CB] at htable
    unfold ContextCache.typeProtoToType
    simp only [TypeProto.tensorTypeField, hcode, ne_eq, not_false_iff, if_true]
    cases het : cc.tensorElementType code with
    | error e =>
      exfalso
      unfold ContextCache.tensorElementType at het
      cases hl : pyLookup cc.elemTypeMap code with
      | some t0 => rw [hl] at het; cases het
      | none => rw [hl, htable] at het; cases het
    | ok r =>
      obtain ⟨t0, cc1⟩ := r
      have h1 := tensorElementType_WF cc code t0 cc1 hwf het
      have ht0 : t0 = t := by
        have := h1.1.symm.trans htable
        cases this
        rfl
      subst ht0
      have hdims : ((⟨code, shape?⟩ : TensorTypeProto).shape.getD []).map
          (fun d => d.dimValue) = [] := by
        rcases hshape with h | h <;> subst h <;> rfl
      refine ⟨(cc1.getVtensorType [] t0).2, ?_⟩
      simp only [het, Except.bind, hdims]
      rw [← (getVtensorType_WF cc1 [] t0 h1.2).1]
      rfl

theorem C7_rank0_tensor_witness :
    (ContextCache.init.getVtensorType [] .f32).1 = IrType.vtensor [] .f32 ∧
    ∃ cc', ContextCache.init.typeProtoToType (some (.tensor ⟨1, some []⟩)) =
      .ok (IrType.vtensor [] .f32, cc', []) :=
  ⟨C7_rank0_tensor.1 ContextCache.init .f32 ContextCache.WF_init,
   C7_rank0_tensor.2 ContextCache.init 1 .f32 ContextCache.WF_init (by rfl)
     (some []) (Or.inr rfl)⟩

/-- C8 (counterexample): an *empty* type descriptor (a `TypeProto` with no
variant set, as occurs for unused function arguments) produces the "none"
placeholder type but emits *no* diagnostic warning — the warning is only
emitted for the absent-descriptor sentinel. -/
theorem C8_counterexample :
    ContextCache.init.typeProtoToType (some .empty) =
      .ok (.noneT, ContextCache.init, []) := by
  rfl

/-- C8 (amended): a value whose type descriptor is absent (the `""`
sentinel of `find_type_proto_for_name`) or empty (no variant set) never
fails type conversion: both produce the distinguished "none" placeholder
type; the absent case emits the diagnostic warning recommending re-running
shape inference, while the empty case is silent. -/
theorem C8_none_type_fallback :
    (∀ cc : ContextCache, cc.typeProtoToType none =
       .ok (.noneT, cc, [shapeInferenceWarning])) ∧
    (∀ cc : ContextCache, cc.typeProtoToType (some .empty) =
       .ok (.noneT, cc, [])) :=
  ⟨fun _ => rfl, fun _ => rfl⟩

/-! ## Function-template version selection (the specializer policy) -/

theorem filterMax_le (l : List Nat) (opset v : Nat)
    (h : (l.filter (fun ver => ver ≤ opset)).max? = some v) :
    v ∈ l ∧ v ≤ opset ∧ ∀ w ∈ l, w ≤ opset → w ≤ v := by
  rw [List.max?_eq_some_iff'] at h
  obtain ⟨hmem, hub⟩ := h
  rw [List.mem_filter] at hmem
  refine ⟨hmem.1, by simpa using hmem.2, ?_⟩
  intro w hw hwo
  exact hub w (List.mem_filter.mpr ⟨hw, by simpa using hwo⟩)

theorem filterMax_none (l : List Nat) (opset : Nat) :
    (l.filter (fun ver => ver ≤ opset)).max? = none ↔ ∀ w ∈ l, ¬ w ≤ opset := by
  rw [List.max?_eq_none_iff, List.filter_eq_nil_iff]
  simp

/-- C6: for every operator invocation that passes the allow/deny-list
policy, the specializer selects the highest function-template version not
exceeding the requested opset version, over both the context-independent
and context-dependent version lists (conjunct 1); when the highest
eligible context-dependent version equals the highest eligible
context-independent one, the context-dependent template wins (conjunct 2);
no eligible version of either kind exists exactly when the selection is
empty (conjunct 3), and in that case `get_operator_function` returns "not
a function" (`None`) with the state untouched (conjunct 4). -/
theorem C6_version_selection :
    (∀ (fvs cdvs : List Nat) (opset v : Nat) (b : Bool),
       selectFunctionVersion fvs cdvs opset = some (v, b) →
       v ≤ opset ∧ (v ∈ fvs ∨ v ∈ cdvs) ∧
       ∀ w, (w ∈ fvs ∨ w ∈ cdvs) → w ≤ opset → w ≤ v) ∧
    (∀ (fvs cdvs : List Nat) (opset v : Nat),
       (fvs.filter (fun ver => ver ≤ opset)).max? = some v →
       (cdvs.filter (fun ver => ver ≤ opset)).max? = some v →
       selectFunctionVersion fvs cdvs opset = some (v, true)) ∧
    (∀ (fvs cdvs : List Nat) (opset : Nat),
       selectFunctionVersion fvs cdvs opset = none ↔
       ∀ w, (w ∈ fvs ∨ w ∈ cdvs) → ¬ w ≤ opset) ∧
    (∀ (fuel : Nat) (orc : Oracles) (opName opDomain : String)
       (opsetVersion : Nat) (inTPs : List TypeProto)
       (outTPs : List (Option TypeProto)) (callerNode : NodeProto)
       (config : Config) (st : IRState) (opSchema : OpSchema),
       (match config.functionExpansionAllowlistsByDomain with
        | none => false
        | some al => !((pyLookup al opDomain).elim false
            (fun names => decide (opName ∈ names)))) = false →
       ((pyLookup config.functionExpansionDenylistsByDomain opDomain).elim false
         (fun names => decide (opName ∈ names))) = false →
       orc.getSchema opName opDomain opsetVersion = some opSchema →
       selectFunctionVersion opSchema.functionOpsetVersions
         opSchema.contextDependentFunctionOpsetVersions opsetVersion = none →
       getOperatorFunction (fuel + 1) orc opName opDomain opsetVersion inTPs
         outTPs callerNode config st = .ok (none, st)) := by
  refine ⟨?_, ?_, ?_, ?_⟩
  · intro fvs cdvs opset v b h
    unfold selectFunctionVersion at h
    cases hn : (fvs.filter (fun ver => ver ≤ opset)).max? with
    | none =>
      cases hc : (cdvs.filter (fun ver => ver ≤ opset)).max? with
      | none => rw [hn, hc] at h; cases h
      | some c =>
        rw [hn, hc] at h
        cases h
        obtain ⟨hmem, hle, hub⟩ := filterMax_le cdvs opset v hc
        refine ⟨hle, Or.inr hmem, ?_⟩
        rintro w (hw | hw) hwo
        · exact absurd hwo ((filterMax_none fvs opset).mp hn w hw)
        · exact hub w hw hwo
    | some n =>
      cases hc : (cdvs.filter (fun ver => ver ≤ opset)).max? with
      | none =>
        rw [hn, hc] at h
        cases h
        obtain ⟨hmem, hle, hub⟩ := filterMax_le fvs opset v hn
        refine ⟨hle, Or.inl hmem, ?_⟩
        rintro w (hw | hw) hwo
        · exact hub w hw hwo
        · exact absurd hwo ((filterMax_none cdvs opset).mp hc w hw)
      | some c =>
        rw [hn, hc] at h
        dsimp only at h
        obtain ⟨hnmem, hnle, hnub⟩ := filterMax_le fvs opset n hn
        obtain ⟨hcmem, hcle, hcub⟩ := filterMax_le cdvs opset c hc
        by_cases hlt : c < n
        · rw [if_pos hlt] at h
          cases h
          refine ⟨hnle, Or.inl hnmem, ?_⟩
          rintro w (hw | hw) hwo
          · exact hnub w hw hwo
          · exact le_trans (hcub w hw hwo) (le_of_lt hlt)
        · rw [if_neg hlt] at h
          cases h
          refine ⟨hcle, Or.inr hcmem, ?_⟩
          rintro w (hw | hw) hwo
          · exact le_trans (hnub w hw hwo) (Nat.le_of_not_lt hlt)
          · exact hcub w hw hwo
  · intro fvs cdvs opset v hn hc
    unfold selectFunctionVersion
    rw [hn, hc]
    simp
  · intro fvs cdvs opset
    unfold selectFunctionVersion
    cases hn : (fvs.filter (fun ver => ver ≤ opset)).max? with
    | none =>
      cases hc : (cdvs.filter (fun ver => ver ≤ opset)).max? with
      | none =>
        dsimp only
        constructor
        · intro _
          rintro w (hw | hw)
          · exact (filterMax_none fvs opset).mp hn w hw
          · exact (filterMax_none cdvs opset).mp hc w hw
        · intro _; rfl
      | some c =>
        dsimp only
        constructor
        · intro h; cases h
        · intro hall
          obtain ⟨hmem, hle, _⟩ := filterMax_le cdvs opset c hc
          exact absurd hle (hall c (Or.inr hmem))
    | some n =>
      constructor
      · intro h
        cases hc : (cdvs.filter (fun ver => ver ≤ opset)).max? with
        | none => rw [hc] at h; dsimp only at h; cases h
        | some c =>
          rw [hc] at h
          dsimp only at h
          split at h <;> cases h
      · intro hall
        obtain ⟨hmem, hle, _⟩ := filterMax_le fvs opset n hn
        exact absurd hle (hall n (Or.inl hmem))
  · intro fuel orc opName opDomain opsetVersion inTPs outTPs callerNode config
      st opSchema hAllow hDeny hSchema hSel
    unfold getOperatorFunction
    rw [hAllow]
    simp only [Bool.false_eq_true, if_false]
    rw [hDeny]
    simp only [Bool.false_eq_true, if_false]
    rw [hSchema]
    dsimp only
    rw [hSel]

/-! ## Attribute binding on nested subgraphs (C1) -/

/-- A reference attribute (`ref_attr_name = "alpha"`) on a node *inside* a
nested Graph-valued attribute of a function-template-body node. -/
def c1InnerRefAttr : AttributeProto := .mk "alpha_local" "alpha" ATTR_FLOAT none [] none [] 0

def c1InnerNode : NodeProto := .mk "LeakyRelu" "" "inner" ["x"] ["y"] [c1InnerRefAttr]

def c1SubGraph : GraphProto := .mk "body" [c1InnerNode] [] [] [] []

/-- The Graph-valued (`GRAPH`-typed) attribute holding the subgraph. -/
def c1GraphAttr : AttributeProto := .mk "then_branch" "" ATTR_GRAPH (some c1SubGraph) [] none [] 0

/-- A template-body node with a nested Graph-valued attribute. -/
def c1TemplateNode : NodeProto := .mk "If" "" "tmpl" [] [] [c1GraphAttr]

/-- A template-body node with a top-level reference attribute. -/
def c1TopNode : NodeProto := .mk "Bar" "" "top" [] [] [.mk "beta_local" "alpha" ATTR_FLOAT none [] none [] 0]

/-- The caller's node, carrying attribute `alpha` (payload 42). -/
def c1CallerNode : NodeProto := .mk "Caller" "" "call" [] [] [.mk "alpha" "" ATTR_FLOAT none [] none [] 42]

def c1SchemaAttrs : SchemaAttrs := [("alpha", .mk "alpha" "" ATTR_FLOAT none [] none [] 7)]

/-- C1: evaluation of `_bind_attributes_on_node` at the failing input.  A
*top-level* reference attribute of a template-body node is bound from the
caller (conjunct 2), but a node inside a nested Graph-valued attribute is
returned entirely unchanged (conjunct 3) — its reference attribute is
still an unbound reference (conjunct 4) even though the caller carries the
referenced attribute (conjunct 1).  The claim (like the source's own
docstring and the ONNX C++ binder it cites) requires the binding to apply
recursively inside nested Graph-valued attributes; the code's recursion
branch is unreachable for singular `GRAPH` attributes (its guard
`not old_attribute.g or len(old_attribute.graphs) == 0` is always true for
them) and would raise `NameError` on the undefined `new_subgraph` if
reached. -/
theorem C1_nested_ref_not_bound :
    (c1CallerNode.attrs.find? (fun a => a.name == "alpha")).isSome = true ∧
    bindAttributesOnNode c1TopNode c1CallerNode c1SchemaAttrs =
      .ok (.mk "Bar" "" "top" [] []
        [.mk "beta_local" "" ATTR_FLOAT none [] none [] 42]) ∧
    bindAttributesOnNode c1TemplateNode c1CallerNode c1SchemaAttrs =
      .ok c1TemplateNode ∧
    (((c1GraphAttr.g.getD (.mk "" [] [] [] [] [])).node.headD
        (.mk "" "" "" [] [] [])).attrs.headD
          (.mk "" "" 0 none [] none [] 0)).refAttrName = "alpha" :=
  ⟨rfl, rfl, rfl, rfl⟩

/-! ## Effective inputs and initialized-input elision (C4) -/

/-- `defineFunction`'s parameter-name list is the effective input map's
key list. -/
theorem defineFunction_paramNames (gi : GraphInfo) (st : IRState)
    (priv : Bool) (fv : FuncVal) (fr : Frame) (st' : IRState)
    (h : defineFunction gi st priv = .ok (fv, fr, st')) :
    fv.paramNames = gi.inputMap.map Prod.fst := by
  unfold defineFunction at h
  simp only [bind, Except.bind] at h
  split at h
  · cases h
  · split at h
    · cases h
    · cases h
      rfl

/-- C4: under `elide_initialized_inputs = True` (the default) a top-level
declared input that also has an initial value is excluded from the
effective input map, and hence absent from the parameter-name list of the
IR function that `define_function` creates (conjunct 1); with the flag
off, any overlap between declared inputs and initial values makes
Graph-Index construction fail (the `assert`), before any IR is built
(conjunct 2). -/
theorem C4_elide_initialized_inputs :
    (∀ (mi : ModelInfo) (gp : GraphProto) (name : String),
       mi.config.elideInitializedInputs = true →
       pyContains (pyDict (gp.initializer.map (fun n => (n.name, n)))) name = true →
       ∀ gi, GraphInfo.init mi gp false = .ok gi →
         pyContains gi.inputMap name = false ∧
         ∀ (st : IRState) (priv : Bool) fv fr st',
           defineFunction gi st priv = .ok (fv, fr, st') →
           name ∉ fv.paramNames) ∧
    (∀ (mi : ModelInfo) (gp : GraphProto) (name : String),
       mi.config.elideInitializedInputs = false →
       pyContains (pyDict (gp.input.map (fun n => (n.name, n)))) name = true →
       pyContains (pyDict (gp.initializer.map (fun n => (n.name, n)))) name = true →
       GraphInfo.init mi gp false =
         .error (.assertionError "elide_initialized_inputs")) := by
  constructor
  · intro mi gp name hElide hInit gi hgi
    unfold GraphInfo.init at hgi
    rw [hElide] at hgi
    simp only [Bool.not_false, Bool.true_and, if_true] at hgi
    cases hgi
    have hmap : pyContains
        ((pyDict (gp.input.map (fun n => (n.name, n)))).filter
          (fun p => !(pyContains (pyDict (gp.initializer.map (fun n => (n.name, n)))) p.1)))
        name = false := by
      unfold pyContains
      rw [← Bool.not_eq_true, Option.isSome_iff_exists]
      rintro ⟨v, hv⟩
      have hmem := pyLookup_mem _ _ _ hv
      rw [List.mem_filter] at hmem
      have h2 := hmem.2
      simp only at h2
      unfold pyContains at hInit
      rw [hInit] at h2
      simp at h2
    refine ⟨hmap, ?_⟩
    intro st priv fv fr st' hdf
    rw [defineFunction_paramNames _ _ _ _ _ _ hdf]
    intro hmem2
    have : (pyLookup ((pyDict (gp.input.map (fun n => (n.name, n)))).filter
        (fun p => !(pyContains (pyDict (gp.initializer.map (fun n => (n.name, n)))) p.1)))
        name).isSome := by
      rw [pyLookup_isSome_iff_mem_keys]
      exact hmem2
    rw [show (pyContains ((pyDict (gp.input.map (fun n => (n.name, n)))).filter
        (fun p => !(pyContains (pyDict (gp.initializer.map (fun n => (n.name, n)))) p.1)))
        name) = true from this] at hmap
    cases hmap
  · intro mi gp name hElide hIn hInit
    unfold GraphInfo.init
    rw [hElide]
    simp only [Bool.and_false, if_false, Bool.false_eq_true]
    have hall : (pyDict (gp.input.map (fun n => (n.name, n)))).all
        (fun p => !(pyContains (pyDict (gp.initializer.map (fun n => (n.name, n)))) p.1)) = false := by
      rw [← Bool.not_eq_true, List.all_eq_true]
      intro hforall
      unfold pyContains at hIn
      rw [Option.isSome_iff_exists] at hIn
      obtain ⟨v, hv⟩ := hIn
      have hmem := pyLookup_mem _ _ _ hv
      have h3 := hforall _ hmem
      simp only at h3
      unfold pyContains at hInit h3
      rw [hInit] at h3
      simp at h3
    rw [hall]
    rfl

/-! ## Subgraph frame seeding (C9) -/

/-- C9: the nested frame of a Graph-valued attribute import is seeded
first with the subgraph's own block parameters and then with every binding
of the enclosing scope, the latter overwriting the former; consequently a
name bound in the enclosing scope resolves — inside the subgraph — to the
enclosing scope's value (conjunct 1), names not bound in the enclosing
scope resolve to their block parameters (conjunct 2), and a name that is
both a declared subgraph input and enclosing-bound does *not* resolve to
its block parameter whenever that parameter differs from the enclosing
value (conjunct 3; block parameters are freshly allocated, so they always
differ from pre-existing values). -/
theorem C9_subgraph_seeding :
    (∀ (blockNames : List String) (args : List Nat)
       (enclosing : List (String × Nat)) (k : String) (v : Nat),
       (enclosing.map Prod.fst).Nodup →
       pyLookup enclosing k = some v →
       pyLookup (seedSubgraphFrame blockNames args enclosing) k = some v) ∧
    (∀ (blockNames : List String) (args : List Nat)
       (enclosing : List (String × Nat)) (k : String),
       pyLookup enclosing k = none →
       pyLookup (seedSubgraphFrame blockNames args enclosing) k =
         pyLookup ((blockNames.zip args).foldl (fun m p => pyUpd m p.1 p.2) []) k) ∧
    (∀ (blockNames : List String) (args : List Nat)
       (enclosing : List (String × Nat)) (k : String) (v b : Nat),
       (enclosing.map Prod.fst).Nodup →
       pyLookup enclosing k = some v → b ≠ v →
       pyLookup (seedSubgraphFrame blockNames args enclosing) k ≠ some b) := by
  refine ⟨?_, ?_, ?_⟩
  · intro blockNames args enclosing k v hnd hv
    unfold seedSubgraphFrame
    exact pyLookup_foldl_pyUpd_mem enclosing k v hnd (pyLookup_mem _ _ _ hv) _
  · intro blockNames args enclosing k hnone
    unfold seedSubgraphFrame
    have : k ∉ enclosing.map Prod.fst := by
      rw [← pyLookup_isSome_iff_mem_keys, hnone]
      simp
    exact pyLookup_foldl_pyUpd_not_mem enclosing k this _
  · intro blockNames args enclosing k v b hnd hv hb
    unfold seedSubgraphFrame
    rw [pyLookup_foldl_pyUpd_mem enclosing k v hnd (pyLookup_mem _ _ _ hv) _]
    intro hc
    cases hc
    exact hb rfl

theorem C9_subgraph_seeding_witness :
    pyLookup (seedSubgraphFrame ["x"] [100] [("x", 5)]) "x" = some 5 ∧
    pyLookup (seedSubgraphFrame ["x"] [100] [("x", 5)]) "x" ≠ some 100 ∧
    pyLookup (seedSubgraphFrame ["z"] [100] [("x", 5)]) "z" = some 100 :=
  ⟨C9_subgraph_seeding.1 ["x"] [100] [("x", 5)] "x" 5 (by simp) (by rfl),
   C9_subgraph_seeding.2.2 ["x"] [100] [("x", 5)] "x" 5 100 (by simp) (by rfl)
     (by decide),
   by
     rw [C9_subgraph_seeding.2.1 ["z"] [100] [("x", 5)] "z" (by rfl)]
     rfl⟩

/-! ## Concrete fixtures and witnesses for C4 and C6 -/

def stubOracles : Oracles := ⟨fun _ _ _ => none, fun m => m⟩

def c4Type : TypeProto := .tensor ⟨1, some [⟨some 2⟩]⟩

/-- A graph whose declared input `x` also has an initial value. -/
def c4Graph : GraphProto :=
  .mk "main" [] [⟨"x", 1, [2], some [0, 0, 0, 0, 0, 0, 0, 0]⟩]
    [⟨"x", c4Type⟩, ⟨"y", c4Type⟩] [⟨"y", c4Type⟩] []

def c4MI : ModelInfo := ⟨Config.default, ⟨c4Graph, [⟨"", 17⟩], 7⟩⟩

def c4MIStrict : ModelInfo :=
  ⟨{ Config.default with elideInitializedInputs := false }, ⟨c4Graph, [⟨"", 17⟩], 7⟩⟩

def c4FallbackGI : GraphInfo := ⟨c4MI, c4Graph, [], [], [], [], []⟩

def c4GI : GraphInfo := (GraphInfo.init c4MI c4Graph).toOption.getD c4FallbackGI

theorem C4_elide_initialized_inputs_witness :
    pyContains c4GI.inputMap "x" = false ∧
    GraphInfo.init c4MIStrict c4Graph false =
      .error (.assertionError "elide_initialized_inputs") :=
  ⟨((C4_elide_initialized_inputs.1 c4MI c4Graph "x" rfl (by rfl)) c4GI (by rfl)).1,
   C4_elide_initialized_inputs.2 c4MIStrict c4Graph "x" rfl (by rfl) (by rfl)⟩

def c6NoneSchema : OpSchema := ⟨[], [], [], fun _ => none, fun _ _ _ => none⟩

def c6NoneOrc : Oracles := ⟨fun _ _ _ => some c6NoneSchema, fun m => m⟩

def c6Config : Config :=
  { elideInitializedInputs := true
    functionExpansionAllowlistsByDomain := none
    functionExpansionDenylistsByDomain := [] }

def c6Node : NodeProto := .mk "Foo" "" "" [] [] []

theorem C6_version_selection_witness :
    (18 ≤ 20 ∧ (18 ∈ [13, 18] ∨ 18 ∈ ([18] : List Nat)) ∧
       ∀ w, (w ∈ [13, 18] ∨ w ∈ ([18] : List Nat)) → w ≤ 20 → w ≤ 18) ∧
    selectFunctionVersion [13, 18] [18] 20 = some (18, true) ∧
    getOperatorFunction 1 c6NoneOrc "Foo" "" 20 [] [] c6Node c6Config
      IRState.init = .ok (none, IRState.init) :=
  ⟨C6_version_selection.1 [13, 18] [18] 20 18 true (by rfl),
   C6_version_selection.2.1 [13, 18] [18] 20 18 (by rfl) (by rfl),
   C6_version_selection.2.2.2 0 c6NoneOrc "Foo" "" 20 [] [] c6Node c6Config
     IRState.init c6NoneSchema (by rfl) (by rfl) (by rfl) (by rfl)⟩

/-! ## Non-topological failures (C3) -/

/-- The input-resolution loop of the general node import fails with the
`NonTopological` node-input error at the first unbound input name. -/
theorem inputResolution_first_missing (m : List (String × Nat))
    (inputs : List String) (nm : String)
    (h : inputs.find? (fun n => (pyLookup m n).isNone) = some nm) :
    inputs.mapM (fun inputName =>
      match pyLookup m inputName with
      | some v => Except.ok v
      | none => Except.error (Err.nonTopologicalInput inputName)) =
    .error (.nonTopologicalInput nm) := by
  induction inputs with
  | nil => simp [List.find?] at h
  | cons i rest ih =>
    cases hi : pyLookup m i with
    | none =>
      simp only [List.find?, hi, Option.isNone] at h
      cases h
      simp only [List.mapM_cons, hi]
      rfl
    | some v =>
      simp only [List.find?, hi, Option.isNone] at h
      simp only [List.mapM_cons, hi, ih h]
      rfl

/-- The output-resolution loop at the end of `import_all` fails with the
`NonTopological` graph-output error at the first unbound output name. -/
theorem resolveOutputs_first_missing (frame : Frame) (nm : String)
    (vi : ValueInfoProto)
    (h : frame.gi.outputMap.find? (fun p => (pyLookup frame.nvMap p.1).isNone) =
      some (nm, vi)) :
    resolveOutputs frame = .error (.nonTopologicalOutput nm) := by
  unfold resolveOutputs
  generalize frame.gi.outputMap = l at h ⊢
  induction l with
  | nil => simp [List.find?] at h
  | cons p rest ih =>
    cases hi : pyLookup frame.nvMap p.1 with
    | none =>
      simp only [List.find?, hi, Option.isNone] at h
      cases h
      simp only [List.mapM_cons, hi]
      rfl
    | some v =>
      simp only [List.find?, hi, Option.isNone] at h
      simp only [List.mapM_cons, hi, ih h]
      rfl

/-- C3 (amended): for every node taken through the *general* node import
path (not materialized by the attribute-constant special case),
an input name unbound in the binding map fails the import of that node
with the `NonTopological` node-input error — naming the first such input —
rather than silently reordering (conjunct 1); the output-resolution loop
fails with the `NonTopological` graph-output error at the first declared
output never bound by any node (conjunct 2); and `import_all` propagates
that output failure after all nodes imported successfully (conjunct 3). -/
theorem C3_non_topological :
    (∀ (fuel : Nat) (orc : Oracles) (frame : Frame) (st : IRState)
       (node : NodeProto) (nm : String),
       node.input.find? (fun n => (pyLookup frame.nvMap n).isNone) = some nm →
       importNodeGeneral (fuel + 1) orc frame st node =
         .error (.nonTopologicalInput nm)) ∧
    (∀ (frame : Frame) (nm : String) (vi : ValueInfoProto),
       frame.gi.outputMap.find? (fun p => (pyLookup frame.nvMap p.1).isNone) =
         some (nm, vi) →
       resolveOutputs frame = .error (.nonTopologicalOutput nm)) ∧
    (∀ (fuel : Nat) (orc : Oracles) (func : Bool) (frame : Frame) (st : IRState)
       (f1 : Frame) (s1 : IRState) (v : Nat) (f2 : Frame) (s2 : IRState)
       (f3 : Frame) (s3 : IRState) (nm : String) (vi : ValueInfoProto),
       importInitializerList frame st (frame.gi.initializerMap.map Prod.snd) =
         .ok (f1, s1) →
       getNone f1 s1 = (v, f2, s2) →
       importNodeList fuel orc f2 s2 f2.gi.graphProto.node = .ok (f3, s3) →
       f3.gi.outputMap.find? (fun p => (pyLookup f3.nvMap p.1).isNone) =
         some (nm, vi) →
       importAll (fuel + 1) orc func frame st =
         .error (.nonTopologicalOutput nm)) := by
  refine ⟨?_, resolveOutputs_first_missing, ?_⟩
  · intro fuel orc frame st node nm h
    unfold importNodeGeneral
    simp only [bind, Except.bind]
    rw [inputResolution_first_missing frame.nvMap node.input nm h]
  · intro fuel orc func frame st f1 s1 v f2 s2 f3 s3 nm vi h1 h2 h3 h4
    unfold importAll
    simp only [bind, Except.bind]
    rw [h1]
    dsimp only
    rw [h2]
    dsimp only
    rw [h3]
    dsimp only
    rw [resolveOutputs_first_missing f3 nm vi h4]

/-- The `Constant` special case bypasses input resolution: a `Constant`
node with a tensor `value` attribute. -/
def c3ValueAttr : AttributeProto :=
  .mk "value" "" ATTR_TENSOR none [] (some ⟨"t", 1, [], some [0, 0, 0, 0]⟩) [] 0

/-- A `Constant` node that (illegally, but undetectably for the importer)
lists an input name that no node ever produces. -/
def c3ConstNode : NodeProto :=
  .mk "Constant" "" "cn" ["never_produced"] ["c"] [c3ValueAttr]

def c3Graph : GraphProto :=
  .mk "g" [c3ConstNode] [] [] [⟨"c", .tensor ⟨1, some []⟩⟩] []

def c3MI : ModelInfo := ⟨Config.default, ⟨c3Graph, [⟨"", 17⟩], 7⟩⟩

def c3GI : GraphInfo :=
  (GraphInfo.init c3MI c3Graph).toOption.getD ⟨c3MI, c3Graph, [], [], [], [], []⟩

/-- C3 (counterexample): a graph containing a node that consumes a value
name never bound by any node does *not* always fail with `NonTopological`:
a `Constant` node with a tensor `value` attribute is materialized as a
literal by `_handle_node_Constant` without resolving its inputs, so the
whole import succeeds. -/
theorem C3_counterexample :
    "never_produced" ∈ c3ConstNode.input ∧
    pyLookup (⟨c3GI, []⟩ : Frame).nvMap "never_produced" = none ∧
    (∀ n ∈ c3Graph.node, "never_produced" ∉ n.output) ∧
    (importAll 9 stubOracles true ⟨c3GI, []⟩ IRState.init).isOk = true := by
  refine ⟨by decide, rfl, by decide, rfl⟩

def c3wGraph : GraphProto := .mk "w" [] [] [] [⟨"z", .tensor ⟨1, some []⟩⟩] []

def c3wMI : ModelInfo := ⟨Config.default, ⟨c3wGraph, [⟨"", 17⟩], 7⟩⟩

def c3wGI : GraphInfo :=
  (GraphInfo.init c3wMI c3wGraph).toOption.getD ⟨c3wMI, c3wGraph, [], [], [], [], []⟩

def c3wFrame : Frame := ⟨c3wGI, []⟩

def c3wF2 : Frame := ⟨c3wGI, [("", 0)]⟩

def c3wS2 : IRState :=
  { IRState.init with nextValue := 1, ops := [⟨"torch.constant.none", [], [0]⟩] }

theorem C3_non_topological_witness :
    importNodeGeneral 1 stubOracles ⟨c3wGI, []⟩ IRState.init
        (.mk "Add" "" "n" ["x"] ["s"] []) = .error (.nonTopologicalInput "x") ∧
    importAll 2 stubOracles true c3wFrame IRState.init =
      .error (.nonTopologicalOutput "z") := by
  constructor
  · exact C3_non_topological.1 0 stubOracles ⟨c3wGI, []⟩ IRState.init
      (.mk "Add" "" "n" ["x"] ["s"] []) "x" (by rfl)
  · exact C3_non_topological.2.2 1 stubOracles true c3wFrame IRState.init
      c3wFrame IRState.init 0 c3wF2 c3wS2 c3wF2 c3wS2 "z"
      ⟨"z", .tensor ⟨1, some []⟩⟩ (by rfl) (by rfl) (by rfl) (by rfl)

/-! ## The shared none value (C10) -/

theorem getNone_binds (frame : Frame) (st : IRState) (v : Nat) (f' : Frame)
    (s' : IRState) (h : getNone frame st = (v, f', s')) :
    pyLookup f'.nvMap "" = some v := by
  unfold getNone at h
  cases hl : pyLookup frame.nvMap "" with
  | some w =>
    rw [hl] at h
    cases h
    exact hl
  | none =>
    rw [hl] at h
    dsimp only at h
    cases h
    exact pyLookup_pyUpd_self _ _ _

theorem getNone_idem (frame : Frame) (st : IRState) (v : Nat) (f' : Frame)
    (s' : IRState) (h : getNone frame st = (v, f', s')) :
    getNone f' s' = (v, f', s') := by
  have hb := getNone_binds frame st v f' s' h
  unfold getNone
  rw [hb]

/-- `import_initializer` only adds a binding: every bound name stays
bound. -/
theorem importInitializer_preserves (frame : Frame) (st : IRState)
    (init : TensorProto) (ext : Option String) (v : Nat) (f' : Frame)
    (s' : IRState) (k : String)
    (h : importInitializer frame st init ext = .ok (v, f', s'))
    (hk : (pyLookup frame.nvMap k).isSome) :
    (pyLookup f'.nvMap k).isSome := by
  unfold importInitializer at h
  simp only [bind, Except.bind] at h
  repeat' split at h
  all_goals cases h
  all_goals exact pyLookup_pyUpd_isSome _ _ _ _ hk

/-- `_handle_node_Constant` (when it handles the node) only adds a
binding. -/
theorem handleNodeConstant_preserves (frame : Frame) (st : IRState)
    (node : NodeProto) (f' : Frame) (s' : IRState) (k : String)
    (h : handleNodeConstant frame st node = .ok (some (f', s')))
    (hk : (pyLookup frame.nvMap k).isSome) :
    (pyLookup f'.nvMap k).isSome := by
  unfold handleNodeConstant at h
  simp only [bind, Except.bind] at h
  repeat' split at h
  all_goals cases h
  rename_i r heq
  exact importInitializer_preserves _ _ _ _ r.1 r.2.1 r.2.2 k heq hk

/-- The general node import only adds bindings. -/
theorem importNodeGeneral_preserves (fuel : Nat) (orc : Oracles)
    (frame : Frame) (st : IRState) (node : NodeProto) (f' : Frame)
    (s' : IRState) (k : String)
    (h : importNodeGeneral fuel orc frame st node = .ok (f', s'))
    (hk : (pyLookup frame.nvMap k).isSome) :
    (pyLookup f'.nvMap k).isSome := by
  cases fuel with
  | zero => simp [importNodeGeneral] at h
  | succ n =>
    unfold importNodeGeneral at h
    simp only [bind, Except.bind] at h
    repeat' split at h
    all_goals cases h
    all_goals exact pyLookup_foldl_pyUpd_isSome _ _ _ hk

/-- `import_node` only adds bindings. -/
theorem importNode_preserves (fuel : Nat) (orc : Oracles) (frame : Frame)
    (st : IRState) (node : NodeProto) (f' : Frame) (s' : IRState) (k : String)
    (h : importNode fuel orc frame st node = .ok (f', s'))
    (hk : (pyLookup frame.nvMap k).isSome) :
    (pyLookup f'.nvMap k).isSome := by
  cases fuel with
  | zero => simp [importNode] at h
  | succ n =>
    unfold importNode at h
    split at h
    · split at h
      · cases h
      · rename_i p heq
        cases h
        exact handleNodeConstant_preserves _ _ _ _ _ k heq hk
      · exact importNodeGeneral_preserves n orc frame st node f' s' k h hk
    · exact importNodeGeneral_preserves n orc frame st node f' s' k h hk

/-- The input resolution of the general node import never fails on the
empty-string name while `""` is bound. -/
theorem inputResolution_no_empty_error (m : List (String × Nat))
    (inputs : List String) (v : Nat) (hv : pyLookup m "" = some v) :
    inputs.mapM (fun inputName =>
      match pyLookup m inputName with
      | some w => Except.ok w
      | none => Except.error (Err.nonTopologicalInput inputName)) ≠
    .error (.nonTopologicalInput "") := by
  induction inputs with
  | nil =>
    intro hcon
    rw [List.mapM_nil] at hcon
    exact Except.noConfusion hcon
  | cons i rest ih =>
    rw [List.mapM_cons]
    cases hl : pyLookup m i with
    | none =>
      have hi : i ≠ "" := by
        intro hc; subst hc; rw [hv] at hl; cases hl
      intro hcon
      simp only [bind, Except.bind] at hcon
      cases hcon
      exact hi rfl
    | some w =>
      intro hcon
      simp only [bind, Except.bind] at hcon
      cases hr : rest.mapM (fun inputName =>
        match pyLookup m inputName with
        | some w => Except.ok w
        | none => Except.error (Err.nonTopologicalInput inputName)) with
      | error e =>
        rw [hr] at hcon
        cases hcon
        exact ih hr
      | ok bs =>
        rw [hr] at hcon
        simp [pure, Except.pure] at hcon

/-- Successful input resolution pairs every input name with the value the
binding map currently holds for it. -/
theorem inputResolution_forall₂ (m : List (String × Nat))
    (inputs : List String) (vs : List Nat)
    (h : inputs.mapM (fun inputName =>
      match pyLookup m inputName with
      | some w => Except.ok w
      | none => Except.error (Err.nonTopologicalInput inputName)) = .ok vs) :
    List.Forall₂ (fun n w => pyLookup m n = some w) inputs vs := by
  induction inputs generalizing vs with
  | nil =>
    rw [List.mapM_nil] at h
    cases h
    exact List.Forall₂.nil
  | cons i rest ih =>
    rw [List.mapM_cons] at h
    cases hl : pyLookup m i with
    | none =>
      rw [hl] at h
      simp [bind, Except.bind] at h
    | some w =>
      rw [hl] at h
      simp only [bind, Except.bind] at h
      cases hr : rest.mapM (fun inputName =>
        match pyLookup m inputName with
        | some w => Except.ok w
        | none => Except.error (Err.nonTopologicalInput inputName)) with
      | error e => rw [hr] at h; cases h
      | ok bs =>
        rw [hr] at h
        simp only [pure, Except.pure] at h
        cases h
        exact List.Forall₂.cons hl (ih bs hr)

/-- C10 (amended): `get_none` binds the empty-string name to the shared
none value (conjunct 1: after a `get_none` call the returned value is
bound under `""`; `import_all` makes this call after the initializers and
before any node), and repeated `get_none` calls within one frame return
that same value without change (conjunct 2); node import never removes a
binding (conjunct 3), so `""` stays bound through the node loop; input
resolution therefore never raises the non-topological error for an
empty-string input while `""` is bound (conjunct 4); and every resolved
input — in particular an empty-named (omitted optional) one — resolves to
the value *currently* bound to its name (conjunct 5), which is the shared
none value unless an earlier node's empty-named output rebound `""`. -/
theorem C10_none_binding :
    (∀ (frame : Frame) (st : IRState) (v : Nat) (f' : Frame) (s' : IRState),
       getNone frame st = (v, f', s') → pyLookup f'.nvMap "" = some v) ∧
    (∀ (frame : Frame) (st : IRState) (v : Nat) (f' : Frame) (s' : IRState),
       getNone frame st = (v, f', s') → getNone f' s' = (v, f', s')) ∧
    (∀ (fuel : Nat) (orc : Oracles) (frame : Frame) (st : IRState)
       (node : NodeProto) (f' : Frame) (s' : IRState) (k : String),
       importNode fuel orc frame st node = .ok (f', s') →
       (pyLookup frame.nvMap k).isSome → (pyLookup f'.nvMap k).isSome) ∧
    (∀ (m : List (String × Nat)) (inputs : List String) (v : Nat),
       pyLookup m "" = some v →
       inputs.mapM (fun inputName =>
         match pyLookup m inputName with
         | some w => Except.ok w
         | none => Except.error (Err.nonTopologicalInput inputName)) ≠
       .error (.nonTopologicalInput "")) ∧
    (∀ (m : List (String × Nat)) (inputs : List String) (vs : List Nat),
       inputs.mapM (fun inputName =>
         match pyLookup m inputName with
         | some w => Except.ok w
         | none => Except.error (Err.nonTopologicalInput inputName)) = .ok vs →
       List.Forall₂ (fun n w => pyLookup m n = some w) inputs vs) :=
  ⟨getNone_binds, getNone_idem, importNode_preserves,
   inputResolution_no_empty_error, inputResolution_forall₂⟩

/-- A node with an empty-named output (a skipped optional output). -/
def c10NodeA : NodeProto := .mk "Foo" "" "a" [] [""] []

/-- A node consuming the empty-string name. -/
def c10NodeB : NodeProto := .mk "Bar" "" "b" [""] ["y"] []

def c10Graph : GraphProto :=
  .mk "g" [c10NodeA, c10NodeB] [] [] [⟨"y", .tensor ⟨1, some []⟩⟩] []

def c10MI : ModelInfo := ⟨Config.default, ⟨c10Graph, [⟨"", 17⟩], 7⟩⟩

def c10GI : GraphInfo :=
  (GraphInfo.init c10MI c10Graph).toOption.getD ⟨c10MI, c10Graph, [], [], [], [], []⟩

def c10Frame : Frame := ⟨c10GI, []⟩

/-- C10 (counterexample): an empty-string node input does not *always*
resolve to the shared none value: binding node outputs rebinds the
empty-string name when a node has an empty-named (skipped optional)
output.  Here the shared none value is `0` (the first emitted operation),
node A's empty-named output rebinds `""` to `1`, and node B's input `""`
resolves to `1`, not to the shared none value `0`. -/
theorem C10_counterexample :
    ∃ f s outs,
      importAll 9 stubOracles true c10Frame IRState.init = .ok (f, s, outs) ∧
      (s.ops.reverse.headD ⟨"", [], []⟩) = ⟨"torch.constant.none", [], [0]⟩ ∧
      pyLookup f.nvMap "" = some 1 ∧
      s.ops.headD ⟨"", [], []⟩ = ⟨"torch.operator onnx.Bar", [1], [2]⟩ := by
  refine ⟨_, _, _, rfl, rfl, rfl, rfl⟩

theorem C10_none_binding_witness :
    pyLookup c3wF2.nvMap "" = some 0 ∧
    getNone c3wF2 c3wS2 = (0, c3wF2, c3wS2) ∧
    (∃ f' s', importNode 2 stubOracles ⟨c3GI, [("", 0)]⟩ c3wS2 c3ConstNode =
        .ok (f', s') ∧ (pyLookup f'.nvMap "").isSome = true) ∧
    (["", "x"].mapM (fun inputName =>
       match pyLookup [("", 0), ("x", 7)] inputName with
       | some w => Except.ok w
       | none => Except.error (Err.nonTopologicalInput inputName)) ≠
     .error (.nonTopologicalInput "")) ∧
    List.Forall₂ (fun n w => pyLookup [("", 0), ("x", 7)] n = some w)
      ["", "x"] [0, 7] := by
  refine ⟨C10_none_binding.1 c3wFrame IRState.init 0 c3wF2 c3wS2 rfl,
          C10_none_binding.2.1 c3wFrame IRState.init 0 c3wF2 c3wS2 rfl,
          ?_, ?_, ?_⟩
  · refine ⟨_, _, rfl, ?_⟩
    exact C10_none_binding.2.2.1 2 stubOracles ⟨c3GI, [("", 0)]⟩ c3wS2
      c3ConstNode _ _ "" rfl (by rfl)
  · exact C10_none_binding.2.2.2.1 [("", 0), ("x", 7)] ["", "x"] 0 rfl
  · exact C10_none_binding.2.2.2.2 [("", 0), ("x", 7)] ["", "x"] [0, 7] rfl

/-! ## Specializer memoization (C2) -/

theorem stTypesOf_oracle (tps : List (Option TypeProto)) :
    ∀ (st : IRState) (ts : List IrType) (st' : IRState),
      stTypesOf st tps = .ok (ts, st') → st'.oracleCalls = st.oracleCalls := by
  induction tps with
  | nil =>
    intro st ts st' h
    cases h
    rfl
  | cons tp rest ih =>
    intro st ts st' h
    unfold stTypesOf at h
    simp only [bind, Except.bind] at h
    split at h
    · cases h
    · rename_i r1 heq1
      split at h
      · cases h
      · rename_i r2 heq2
        cases h
        have h1 : r1.2.oracleCalls = st.oracleCalls := by
          unfold stTypeProtoToType at heq1
          split at heq1
          · cases heq1
          · cases heq1
            rfl
        rw [← h1]
        exact ih r1.2 r2.1 r2.2 heq2

theorem defineFunction_shape (gi : GraphInfo) (st : IRState) (priv : Bool)
    (fv : FuncVal) (fr : Frame) (st' : IRState)
    (h : defineFunction gi st priv = .ok (fv, fr, st')) :
    fr.gi = gi ∧ st'.oracleCalls = st.oracleCalls := by
  unfold defineFunction at h
  simp only [bind, Except.bind] at h
  split at h
  · cases h
  · rename_i r1 heq1
    split at h
    · cases h
    · rename_i r2 heq2
      cases h
      refine ⟨rfl, ?_⟩
      rw [show (freshValues { r2.2 with nextFunc := r2.2.nextFunc + 1 }
        r1.1.length).2.oracleCalls = r2.2.oracleCalls from rfl]
      rw [stTypesOf_oracle _ _ _ _ heq2, stTypesOf_oracle _ _ _ _ heq1]

theorem importInitializer_shape (frame : Frame) (st : IRState)
    (init : TensorProto) (ext : Option String) (v : Nat) (f' : Frame)
    (s' : IRState) (h : importInitializer frame st init ext = .ok (v, f', s')) :
    f'.gi = frame.gi ∧ s'.oracleCalls = st.oracleCalls := by
  unfold importInitializer at h
  simp only [bind, Except.bind] at h
  repeat' split at h
  all_goals cases h
  all_goals exact ⟨rfl, rfl⟩

theorem importInitializerList_shape (inits : List TensorProto) :
    ∀ (frame : Frame) (st : IRState) (f' : Frame) (s' : IRState),
      importInitializerList frame st inits = .ok (f', s') →
      f'.gi = frame.gi ∧ s'.oracleCalls = st.oracleCalls := by
  induction inits with
  | nil =>
    intro frame st f' s' h
    cases h
    exact ⟨rfl, rfl⟩
  | cons init rest ih =>
    intro frame st f' s' h
    unfold importInitializerList at h
    simp only [bind, Except.bind] at h
    split at h
    · cases h
    · rename_i r heq
      have h1 := importInitializer_shape frame st init none r.1 r.2.1 r.2.2 heq
      have h2 := ih r.2.1 r.2.2 f' s' h
      exact ⟨h2.1.trans h1.1, h2.2.trans h1.2⟩

theorem getNone_shape (frame : Frame) (st : IRState) (v : Nat) (f' : Frame)
    (s' : IRState) (h : getNone frame st = (v, f', s')) :
    f'.gi = frame.gi ∧ s'.oracleCalls = st.oracleCalls := by
  unfold getNone at h
  split at h
  · cases h
    exact ⟨rfl, rfl⟩
  · dsimp only at h
    cases h
    exact ⟨rfl, rfl⟩

/-- An `import_all` over a graph with no nodes performs no shape-inference
oracle calls. -/
theorem importAll_noNodes_oracle (fuel : Nat) (orc : Oracles) (fn : Bool)
    (frame : Frame) (st : IRState) (f' : Frame) (s' : IRState)
    (outs : List Nat)
    (h : importAll fuel orc fn frame st = .ok (f', s', outs))
    (hn : frame.gi.graphProto.node = []) :
    s'.oracleCalls = st.oracleCalls := by
  cases fuel with
  | zero => simp [importAll] at h
  | succ n =>
    unfold importAll at h
    simp only [bind, Except.bind] at h
    split at h
    · cases h
    · rename_i r1 heq1
      have h1 := importInitializerList_shape _ _ _ _ _ heq1
      split at h
      · cases h
      · rename_i r2 heq2
        have h2 := getNone_shape r1.1 r1.2
          ((getNone r1.1 r1.2).1) ((getNone r1.1 r1.2).2.1)
          ((getNone r1.1 r1.2).2.2) rfl
        rw [h2.1, h1.1, hn] at heq2
        cases n with
        | zero => simp [importNodeList] at heq2
        | succ n2 =>
          unfold importNodeList at heq2
          cases heq2
          split at h
          · cases h
          · cases h
            rw [h2.2, h1.2]

theorem specializeFunctionAndCreateModel_shape (inf : ModelProto → ModelProto)
    (fp : FunctionProto) (sa : SchemaAttrs) (nm : String)
    (itp : List TypeProto) (otp : List (Option TypeProto)) (cn : NodeProto)
    (st : IRState) (m : ModelProto) (st' : IRState)
    (h : specializeFunctionAndCreateModel inf fp sa nm itp otp cn st =
      .ok (m, st')) :
    st'.oracleCalls = st.oracleCalls + 1 ∧
    (fp.node = [] → (∀ mm, (inf mm).graph.node = mm.graph.node) →
      m.graph.node = []) := by
  unfold specializeFunctionAndCreateModel at h
  dsimp only at h
  split at h
  · cases h
  · simp only [bind, Except.bind] at h
    split at h
    · cases h
    · split at h
      · cases h
      · rename_i outs heqo nodes heqn
        cases h
        refine ⟨rfl, ?_⟩
        intro hfp hinf
        rw [hinf]
        rw [hfp] at heqn
        cases heqn
        rfl

theorem GraphInfo.init_graphProto (mi : ModelInfo) (gp : GraphProto)
    (sub : Bool) (gi : GraphInfo) (h : GraphInfo.init mi gp sub = .ok gi) :
    gi.graphProto = gp := by
  unfold GraphInfo.init at h
  dsimp only at h
  split at h
  · cases h; rfl
  · split at h
    · cases h; rfl
    · cases h

/-- A second `get_operator_function` call with identical arguments
returns the identical cached function object and leaves the state
untouched. -/
theorem getOperatorFunction_second_call (fuel fuel' : Nat) (orc : Oracles)
    (opName opDomain : String) (opsetVersion : Nat) (inTPs : List TypeProto)
    (outTPs : List (Option TypeProto)) (callerNode : NodeProto)
    (config : Config) (st : IRState) (F : FuncVal) (st₁ : IRState)
    (h : getOperatorFunction (fuel + 1) orc opName opDomain opsetVersion inTPs
      outTPs callerNode config st = .ok (some F, st₁)) :
    getOperatorFunction (fuel' + 1) orc opName opDomain opsetVersion inTPs
      outTPs callerNode config st₁ = .ok (some F, st₁) := by
  unfold getOperatorFunction at h ⊢
  cases hA : (match config.functionExpansionAllowlistsByDomain with
      | none => false
      | some al => !((pyLookup al opDomain).elim false
          (fun names => decide (opName ∈ names)))) with
  | true => rw [hA] at h; simp at h
  | false =>
    rw [hA] at h
    simp only [Bool.false_eq_true, if_false] at h ⊢
    cases hD : ((pyLookup config.functionExpansionDenylistsByDomain
        opDomain).elim false (fun names => decide (opName ∈ names))) with
    | true => rw [hD] at h; simp at h
    | false =>
      rw [hD] at h
      simp only [Bool.false_eq_true, if_false] at h ⊢
      cases hS : orc.getSchema opName opDomain opsetVersion with
      | none => rw [hS] at h; cases h
      | some opSchema =>
        rw [hS] at h
        dsimp only at h ⊢
        cases hSel : selectFunctionVersion opSchema.functionOpsetVersions
            opSchema.contextDependentFunctionOpsetVersions opsetVersion with
        | none => rw [hSel] at h; simp at h
        | some sel =>
          obtain ⟨specificVersion, isContextDependent⟩ := sel
          rw [hSel] at h
          dsimp only at h ⊢
          cases hK : pyLookup st.opFuncMap (operatorFunctionKey opName opDomain
              opsetVersion inTPs outTPs callerNode isContextDependent) with
          | some existing =>
            rw [hK] at h
            cases h
            rw [hK]
          | none =>
            rw [hK] at h
            cases hF : (if isContextDependent then
                opSchema.getContextDependentFunctionWithOpsetVersion
                  specificVersion callerNode inTPs
              else opSchema.getFunctionWithOpsetVersion specificVersion) with
            | none => rw [hF] at h; cases h
            | some functionProto =>
              rw [hF] at h
              dsimp only at h
              simp only [bind, Except.bind] at h
              cases hSp : specializeFunctionAndCreateModel orc.inferShapes
                  functionProto opSchema.attrs (operatorFunctionKey opName
                    opDomain opsetVersion inTPs outTPs callerNode
                    isContextDependent) inTPs outTPs callerNode st with
              | error e => rw [hSp] at h; cases h
              | ok rSp =>
                obtain ⟨tmpModelProto, stA⟩ := rSp
                rw [hSp] at h
                dsimp only at h
                cases hGI : GraphInfo.init ⟨Config.default, tmpModelProto⟩
                    tmpModelProto.graph with
                | error e => rw [hGI] at h; cases h
                | ok tgi =>
                  rw [hGI] at h
                  dsimp only at h
                  cases hDF : defineFunction tgi stA true with
                  | error e => rw [hDF] at h; cases h
                  | ok rDF =>
                    obtain ⟨funcVal, tmpFrame, stB⟩ := rDF
                    rw [hDF] at h
                    dsimp only at h
                    cases hIA : importAll fuel orc true tmpFrame stB with
                    | error e => rw [hIA] at h; cases h
                    | ok rIA =>
                      obtain ⟨xf, stC, xouts⟩ := rIA
                      rw [hIA] at h
                      dsimp only at h
                      cases h
                      dsimp only
                      rw [pyLookup_pyUpd_self]

/-- On a first call (empty specialization cache) that returns a function,
for schemas whose templates have empty bodies and a shape-inference pass
that preserves the node list, the shape-inference oracle is invoked
exactly once. -/
theorem getOperatorFunction_first_call_oracle (fuel : Nat) (orc : Oracles)
    (opName opDomain : String) (opsetVersion : Nat) (inTPs : List TypeProto)
    (outTPs : List (Option TypeProto)) (callerNode : NodeProto)
    (config : Config) (st : IRState) (F : FuncVal) (st₁ : IRState)
    (hEmpty : st.opFuncMap = [])
    (hSch : ∀ sch, orc.getSchema opName opDomain opsetVersion = some sch →
      (∀ v fp, sch.getFunctionWithOpsetVersion v = some fp → fp.node = []) ∧
      (∀ v n ts fp,
        sch.getContextDependentFunctionWithOpsetVersion v n ts = some fp →
        fp.node = []))
    (hInf : ∀ mm, (orc.inferShapes mm).graph.node = mm.graph.node)
    (h : getOperatorFunction (fuel + 1) orc opName opDomain opsetVersion inTPs
      outTPs callerNode config st = .ok (some F, st₁)) :
    st₁.oracleCalls = st.oracleCalls + 1 := by
  unfold getOperatorFunction at h
  cases hA : (match config.functionExpansionAllowlistsByDomain with
      | none => false
      | some al => !((pyLookup al opDomain).elim false
          (fun names => decide (opName ∈ names)))) with
  | true => rw [hA] at h; simp at h
  | false =>
    rw [hA] at h
    simp only [Bool.false_eq_true, if_false] at h
    cases hD : ((pyLookup config.functionExpansionDenylistsByDomain
        opDomain).elim false (fun names => decide (opName ∈ names))) with
    | true => rw [hD] at h; simp at h
    | false =>
      rw [hD] at h
      simp only [Bool.false_eq_true, if_false] at h
      cases hS : orc.getSchema opName opDomain opsetVersion with
      | none => rw [hS] at h; cases h
      | some opSchema =>
        rw [hS] at h
        dsimp only at h
        cases hSel : selectFunctionVersion opSchema.functionOpsetVersions
            opSchema.contextDependentFunctionOpsetVersions opsetVersion with
        | none => rw [hSel] at h; simp at h
        | some sel =>
          obtain ⟨specificVersion, isContextDependent⟩ := sel
          rw [hSel] at h
          dsimp only at h
          rw [hEmpty, pyLookup_nil] at h
          dsimp only at h
          cases hF : (if isContextDependent then
              opSchema.getContextDependentFunctionWithOpsetVersion
                specificVersion callerNode inTPs
            else opSchema.getFunctionWithOpsetVersion specificVersion) with
          | none => rw [hF] at h; cases h
          | some functionProto =>
            rw [hF] at h
            dsimp only at h
            simp only [bind, Except.bind] at h
            cases hSp : specializeFunctionAndCreateModel orc.inferShapes
                functionProto opSchema.attrs (operatorFunctionKey opName
                  opDomain opsetVersion inTPs outTPs callerNode
                  isContextDependent) inTPs outTPs callerNode st with
            | error e => rw [hSp] at h; cases h
            | ok rSp =>
              obtain ⟨tmpModelProto, stA⟩ := rSp
              rw [hSp] at h
              dsimp only at h
              cases hGI : GraphInfo.init ⟨Config.default, tmpModelProto⟩
                  tmpModelProto.graph with
              | error e => rw [hGI] at h; cases h
              | ok tgi =>
                rw [hGI] at h
                dsimp only at h
                cases hDF : defineFunction tgi stA true with
                | error e => rw [hDF] at h; cases h
                | ok rDF =>
                  obtain ⟨funcVal, tmpFrame, stB⟩ := rDF
                  rw [hDF] at h
                  dsimp only at h
                  cases hIA : importAll fuel orc true tmpFrame stB with
                  | error e => rw [hIA] at h; cases h
                  | ok rIA =>
                    obtain ⟨xf, stC, xouts⟩ := rIA
                    rw [hIA] at h
                    dsimp only at h
                    cases h
                    have hfp : functionProto.node = [] := by
                      cases hCD : isContextDependent with
                      | true =>
                        rw [hCD] at hF
                        simp only [reduceIte] at hF
                        exact (hSch opSchema hS).2 _ _ _ _ hF
                      | false =>
                        rw [hCD] at hF
                        simp only [Bool.false_eq_true, if_false] at hF
                        exact (hSch opSchema hS).1 _ _ hF
                    have hsp := specializeFunctionAndCreateModel_shape _ _ _ _
                      _ _ _ _ _ _ hSp
                    have hdf := defineFunction_shape _ _ _ _ _ _ hDF
                    have hnodes : tmpFrame.gi.graphProto.node = [] := by
                      rw [hdf.1, GraphInfo.init_graphProto _ _ _ _ hGI]
                      exact hsp.2 hfp hInf
                    have hia := importAll_noNodes_oracle _ _ _ _ _ _ _ _ hIA
                      hnodes
                    show stC.oracleCalls = st.oracleCalls + 1
                    rw [hia, hdf.2, hsp.1]

/-- Concrete function template for exercising the specializer: one input,
one output (the input passed through), no body nodes. -/
def c2FP : FunctionProto := ⟨["X"], ["X"], [], [⟨"", 13⟩]⟩

/-- Concrete operator schema: a context-independent function template at
opset version 13, no context-dependent versions. -/
def c2Schema : OpSchema :=
  ⟨[13], [], [], fun ver => if ver = 13 then some c2FP else none,
   fun _ _ _ => none⟩

/-- Oracles serving `c2Schema` for every query, with an identity
shape-inference pass. -/
def c2Orc : Oracles := ⟨fun _ _ _ => some c2Schema, fun m => m⟩

/-- Policy-free configuration (no allowlist, no denylist). -/
def c2Config : Config := ⟨true, none, []⟩

/-- The caller node for the specializer exercise. -/
def c2Node : NodeProto := .mk "Foo" "" "call" ["a"] ["b"] []

def c2InTPs : List TypeProto := [.tensor ⟨1, some []⟩]

def c2OutTPs : List (Option TypeProto) := [some (.tensor ⟨1, some []⟩)]

/-- C2: specializer memoization.  A `get_operator_function` call that
returns a function object caches it under the key built from operator
name, domain, opset version, the ordered input and output type
descriptors and the caller node, so a second call with identical
arguments returns the identical cached function object and leaves the
compilation state — including the shape-inference oracle call count —
untouched; and when the first call starts from an empty cache and the
selected template's specialization triggers no nested expansion (its
body has no nodes and shape inference preserves node lists), the
shape-inference oracle is invoked exactly once across the two calls. -/
theorem C2_specializer_memoization (fuel fuel' : Nat) (orc : Oracles)
    (opName opDomain : String) (opsetVersion : Nat) (inTPs : List TypeProto)
    (outTPs : List (Option TypeProto)) (callerNode : NodeProto)
    (config : Config) (st : IRState) (F : FuncVal) (st₁ : IRState)
    (h : getOperatorFunction (fuel + 1) orc opName opDomain opsetVersion inTPs
      outTPs callerNode config st = .ok (some F, st₁)) :
    getOperatorFunction (fuel' + 1) orc opName opDomain opsetVersion inTPs
      outTPs callerNode config st₁ = .ok (some F, st₁) ∧
    (st.opFuncMap = [] →
      (∀ sch, orc.getSchema opName opDomain opsetVersion = some sch →
        (∀ v fp, sch.getFunctionWithOpsetVersion v = some fp →
          fp.node = []) ∧
        (∀ v n ts fp,
          sch.getContextDependentFunctionWithOpsetVersion v n ts = some fp →
          fp.node = [])) →
      (∀ mm, (orc.inferShapes mm).graph.node = mm.graph.node) →
      st₁.oracleCalls = st.oracleCalls + 1) :=
  ⟨getOperatorFunction_second_call fuel fuel' orc opName opDomain opsetVersion
      inTPs outTPs callerNode config st F st₁ h,
   fun hEmpty hSch hInf => getOperatorFunction_first_call_oracle fuel orc
      opName opDomain opsetVersion inTPs outTPs callerNode config st F st₁
      hEmpty hSch hInf h⟩

/-- Witness for C2 at a concrete schema and call site: the first call
specializes and calls the oracle once; the second returns the cached
function and changes nothing. -/
theorem C2_specializer_memoization_witness :
    ∃ F st₁,
      getOperatorFunction 3 c2Orc "Foo" "" 13 c2InTPs c2OutTPs c2Node
        c2Config IRState.init = .ok (some F, st₁) ∧
      getOperatorFunction 3 c2Orc "Foo" "" 13 c2InTPs c2OutTPs c2Node
        c2Config st₁ = .ok (some F, st₁) ∧
      st₁.oracleCalls = IRState.init.oracleCalls + 1 := by
  refine ⟨_, _, rfl, ?_, ?_⟩
  · exact (C2_specializer_memoization 2 2 c2Orc "Foo" "" 13 c2InTPs c2OutTPs
      c2Node c2Config IRState.init _ _ rfl).1
  · refine (C2_specializer_memoization 2 2 c2Orc "Foo" "" 13 c2InTPs c2OutTPs
      c2Node c2Config IRState.init _ _ rfl).2 rfl ?_ (fun mm => rfl)
    intro sch hs
    cases hs
    refine ⟨fun v fp hf => ?_, fun v n ts fp hf => ?_⟩
    · simp only [c2Schema] at hf
      split at hf
      · cases hf; rfl
      · cases hf
    · simp only [c2Schema] at hf
      cases hf
